import Mathlib

/-!
vninfo: a command-line client for a visual-novel metadata service

A shallow embedding of `main.go`.  The program reads a title from standard
input, posts one JSON query, and either prints the single record it received,
lists the candidates and reads a 1-based choice, or reports that nothing was
found.

Standard input and output are modelled by an explicit `World` that every
printing or reading statement transforms.  The HTTP round trip and the JSON
decoder are parameters (`Network`); the pieces of Go's standard library that
the program's observable text depends on (`strconv.Atoi`, `strings.TrimSpace`,
`strings.Join`, the `%d` and `%.2f` verbs, `json.Marshal` on the query map, the
colour wrapper) are modelled by executable definitions.  `int` is the 64-bit
Go integer; values are carried in `Int`, and the one place where the range
matters (`Atoi`) checks it explicitly.
-/

namespace VNInfo

/-! ## Strings and numerals -/

/-- Go `unicode.IsSpace`: the white-space code points that `strings.TrimSpace` removes. -/
def isSpace (c : Char) : Bool :=
  let n := c.toNat
  (9 ≤ n && n ≤ 13) || n = 32 || n = 0x85 || n = 0xA0 || n = 0x1680 ||
  (0x2000 ≤ n && n ≤ 0x200A) || n = 0x2028 || n = 0x2029 || n = 0x202F ||
  n = 0x205F || n = 0x3000

/-- Go `strings.TrimSpace`: drop leading and trailing white space. -/
def TrimSpace (s : String) : String :=
  String.mk ((s.toList.dropWhile isSpace).reverse.dropWhile isSpace).reverse

/-- Go `strings.Join(items, sep)`. -/
def Join : List String → String → String
  | [], _ => ""
  | [a], _ => a
  | a :: b :: rest, sep => a ++ sep ++ Join (b :: rest) sep

/-- Go `strings.Repeat(s, count)`. -/
def Repeat (s : String) : Nat → String
  | 0 => ""
  | n + 1 => s ++ Repeat s n

/-- An ASCII decimal digit. -/
def isDigit (c : Char) : Bool := decide ('0' ≤ c) && decide (c ≤ '9')

/-- Value of a digit string read left to right, as the accumulation loop
`n = n*10 + (ch - '0')` computes it. -/
def digitsValue (ds : List Char) : Nat :=
  ds.foldl (fun n ch => n * 10 + (ch.toNat - '0'.toNat)) 0

/-- The characters after an optional leading sign. -/
def unsignedPart : List Char → List Char
  | '-' :: r => r
  | '+' :: r => r
  | cs => cs

/-- A token has numeral syntax when it is an optional sign followed by one or
more decimal digits. -/
def isNumeral (s : String) : Bool :=
  let ds := unsignedPart s.toList
  !ds.isEmpty && ds.all isDigit

/-- Go `strconv.Atoi` for the 64-bit `int`: `some n` when the call returns
`(n, nil)`, `none` when it returns an error (syntax or range). -/
def Atoi (s : String) : Option Int :=
  if isNumeral s then
    let un := digitsValue (unsignedPart s.toList)
    if s.toList.head? = some '-' then
      if un ≤ 2 ^ 63 then some (-(un : Int)) else none
    else
      if un < 2 ^ 63 then some (un : Int) else none
  else none

/-- The `%d` verb applied to an integer. -/
def formatInt (z : Int) : String :=
  if z < 0 then "-" ++ Nat.repr z.natAbs else Nat.repr z.toNat

/-- The `%v` verb applied to a boolean. -/
def formatBool (b : Bool) : String := if b then "true" else "false"

/-! ## Floating-point values and the `%.2f` verb -/

/-- A `float64` value, carried exactly: a finite value is
`(-1)^neg * mant * 2^exp`. -/
inductive Float64 where
  | finite (neg : Bool) (mant : Nat) (exp : Int)
  | inf (neg : Bool)
  | nan

/-- Nearest integer to `num / den`, ties to the even neighbour. -/
def roundHalfEven (num den : Nat) : Nat :=
  let q := num / den
  let r := num % den
  if 2 * r < den then q
  else if den < 2 * r then q + 1
  else if q % 2 = 0 then q else q + 1

/-- The magnitude `mant * 2^exp`, in hundredths, correctly rounded. -/
def hundredths (mant : Nat) (exp : Int) : Nat :=
  if 0 ≤ exp then mant * 2 ^ exp.toNat * 100
  else roundHalfEven (mant * 100) (2 ^ (-exp).toNat)

/-- Two decimal digits, zero padded. -/
def pad2 (n : Nat) : String := if n < 10 then "0" ++ Nat.repr n else Nat.repr n

/-- The text of `fmt.Sprintf("%.2f", x)`. -/
def formatFloat2 : Float64 → String
  | .nan => "NaN"
  | .inf false => "+Inf"
  | .inf true => "-Inf"
  | .finite neg mant exp =>
    let h := hundredths mant exp
    (if neg then "-" else "") ++ Nat.repr (h / 100) ++ "." ++ pad2 (h % 100)

/-! ## Colour wrapper (`github.com/fatih/color`) -/

/-- The foreground colour attributes the program uses. -/
inductive Attribute where
  | FgRed | FgGreen | FgYellow | FgBlue | FgMagenta | FgCyan
  deriving DecidableEq

/-- The SGR parameter of a colour attribute. -/
def Attribute.code : Attribute → Nat
  | .FgRed => 31
  | .FgGreen => 32
  | .FgYellow => 33
  | .FgBlue => 34
  | .FgMagenta => 35
  | .FgCyan => 36

/-- The colour package's global switch: `NoColor` is set when standard output
is not a terminal (or colours are disabled by the environment). -/
structure Terminal where
  NoColor : Bool

/-- The package's `colorString` with no format arguments: the text itself when
colours are off, the text between the colour's escape sequence and the reset
sequence otherwise. -/
def colorString (t : Terminal) (p : Attribute) (s : String) : String :=
  if t.NoColor then s else "\x1b[" ++ Nat.repr p.code ++ "m" ++ s ++ "\x1b[0m"

def RedString (t : Terminal) (s : String) : String := colorString t .FgRed s
def GreenString (t : Terminal) (s : String) : String := colorString t .FgGreen s
def YellowString (t : Terminal) (s : String) : String := colorString t .FgYellow s
def BlueString (t : Terminal) (s : String) : String := colorString t .FgBlue s
def MagentaString (t : Terminal) (s : String) : String := colorString t .FgMagenta s
def CyanString (t : Terminal) (s : String) : String := colorString t .FgCyan s

/-! ## Data model -/

structure Image where
  URL : String

structure VNDBEntry where
  ID : String
  Title : String
  Image : Image
  AltTitle : String
  Official : Bool
  OriginalLang : String
  DevStatus : Int
  Released : String
  Languages : List String
  Platforms : List String
  Description : String
  Rating : Float64
  VoteCount : Int
  Length : Int
  LengthMinutes : Int
  LengthVotes : Int

/-! ## Standard input and output -/

/-- The process's console: the input the buffered reader has not yet handed to
the program, the sequence of writes made to standard output (one element per
`fmt.Print*` call), the number of lines requested from the reader, and whether
the run panicked. -/
structure World where
  stdin : String
  stdout : List String
  reads : Nat
  panicked : Bool

/-- The console before `main` starts. -/
def World.start (stdin : String) : World := ⟨stdin, [], 0, false⟩

/-- The text that has appeared on standard output. -/
def World.text (w : World) : String := String.join w.stdout

/-- Go `fmt.Print(s)`. -/
def Print (s : String) (w : World) : World := { w with stdout := w.stdout ++ [s] }

/-- Go `fmt.Println(s)`. -/
def Println (s : String) (w : World) : World := Print (s ++ "\n") w

/-- Split at the first newline, keeping it with the first part; the whole
input when there is none. -/
def splitLine : List Char → List Char × List Char
  | [] => ([], [])
  | c :: cs =>
    if c = '\n' then ([c], cs)
    else ((c :: (splitLine cs).1), (splitLine cs).2)

/-- Go `reader.ReadString('\n')`, its error ignored as the program does. -/
def ReadString (w : World) : String × World :=
  let p := splitLine w.stdin.toList
  (String.mk p.1, { w with stdin := String.mk p.2, reads := w.reads + 1 })

/-- An out-of-range slice index. -/
def goPanic (w : World) : World := { w with panicked := true }

/-! ## Presentation -/

def formatDevStatus (t : Terminal) (status : Int) : String :=
  if status = 0 then GreenString t "Finished"
  else if status = 1 then YellowString t "In development"
  else if status = 2 then RedString t "Cancelled"
  else RedString t "Unknown"

def formatList (t : Terminal) (items : List String) : String :=
  CyanString t (Join items ", ")

def printEntry (t : Terminal) (entry : VNDBEntry) (w : World) : World :=
  w |> Println (Repeat "=" 40)
    |> Println (CyanString t ("Title: " ++ entry.Title))
    |> Println (Repeat "=" 40)
    |> Print ("ID: " ++ YellowString t entry.ID ++ "\n")
    |> Print ("Image URL: " ++ BlueString t entry.Image.URL ++ "\n")
    |> Print ("Alternate Title: " ++ entry.AltTitle ++ "\n")
    |> Print ("Official Title: " ++ GreenString t (formatBool entry.Official) ++ "\n")
    |> Print ("Original Language: " ++ MagentaString t entry.OriginalLang ++ "\n")
    |> Print ("Development Status: " ++ formatDevStatus t entry.DevStatus ++ "\n")
    |> Print ("Release Date: " ++ entry.Released ++ "\n")
    |> Print ("Languages: " ++ formatList t entry.Languages ++ "\n")
    |> Print ("Platforms: " ++ formatList t entry.Platforms ++ "\n")
    |> Print ("Description: " ++ entry.Description ++ "\n")
    |> Print ("Rating: " ++ YellowString t (formatFloat2 entry.Rating) ++ "\n")
    |> Print ("Vote Count: " ++ formatInt entry.VoteCount ++ "\n")
    |> Print ("Length: " ++ formatInt entry.Length ++ "\n")
    |> Print ("Length in Minutes: " ++ formatInt entry.LengthMinutes ++ "\n")
    |> Print ("Length Votes: " ++ formatInt entry.LengthVotes ++ "\n")
    |> Println (Repeat "=" 40)

/-! ## Choice parsing -/

def parseChoice (choice : String) (maxIndex : Int) : Int :=
  let index : Int := -1
  match Atoi choice with
  | some num => if num ≥ 1 ∧ num ≤ maxIndex then num - 1 else index
  | none => index

/-! ## Query construction and transport -/

/-- The values the program stores in its query map: a string, or a list whose
elements are strings. -/
inductive Value where
  | str (s : String)
  | list (items : List String)
  deriving DecidableEq

/-- A Go `map[string]interface{}` literal with distinct keys, as the list of its
key/value pairs. -/
abbrev Query := List (String × Value)

/-- One character of a JSON string as `encoding/json` writes it with HTML
escaping on: quote and backslash are backslash-escaped, the five control
characters with a short form use it, other control characters and `<`, `>`,
`&` become `\u00XX`, the two Unicode line separators become `\u2028` and
`\u2029`, everything else is copied.  (The short forms `\b` and `\f` are those
of Go 1.22 and later; earlier releases wrote `\u0008` and `\u000c`.) -/
def encodeChar (c : Char) : List Char :=
  if c = '\\' ∨ c = '"' then ['\\', c]
  else if c = '\x08' then ['\\', 'b']
  else if c = '\x0c' then ['\\', 'f']
  else if c = '\n' then ['\\', 'n']
  else if c = '\r' then ['\\', 'r']
  else if c = '\t' then ['\\', 't']
  else if c.toNat < 0x20 ∨ c = '<' ∨ c = '>' ∨ c = '&' then
    ['\\', 'u', '0', '0', Nat.digitChar (c.toNat / 16), Nat.digitChar (c.toNat % 16)]
  else if c.toNat = 0x2028 ∨ c.toNat = 0x2029 then
    ['\\', 'u', '2', '0', '2', Nat.digitChar (c.toNat % 16)]
  else [c]

/-- A JSON string literal. -/
def encodeString (s : String) : String :=
  "\"" ++ String.mk (s.toList.flatMap encodeChar) ++ "\""

/-- A JSON value. -/
def encodeValue : Value → String
  | .str s => encodeString s
  | .list items => "[" ++ Join (items.map encodeString) "," ++ "]"

/-- Lexicographic order on texts, character by character: the order in which Go
compares strings. -/
def lessChars : List Char → List Char → Bool
  | _, [] => false
  | [], _ :: _ => true
  | a :: as, b :: bs => decide (a.toNat < b.toNat) || (decide (a = b) && lessChars as bs)

/-- Insert a member into a key-sorted member list. -/
def insertByKey (kv : String × Value) : List (String × Value) → List (String × Value)
  | [] => [kv]
  | x :: xs =>
    if lessChars kv.1.toList x.1.toList then kv :: x :: xs else x :: insertByKey kv xs

/-- The members of a map in the order `encoding/json` writes them: sorted by key. -/
def sortByKey (q : Query) : List (String × Value) :=
  q.foldr insertByKey []

/-- Go `json.Marshal` on a query map.  No value of this shape makes it fail. -/
def Marshal (q : Query) : Except String String :=
  .ok ("\x7b" ++ Join ((sortByKey q).map fun kv => encodeString kv.1 ++ ":" ++ encodeValue kv.2) ","
    ++ "\x7d")

/-- The outside world of `fetchData`: the HTTP POST (URL, content type, body to
response body) and the JSON decoding of the response body, each either
succeeding or failing with an error text. -/
structure Network where
  Post : String → String → String → Except String String
  Decode : String → Except String (List VNDBEntry)

def fetchData (net : Network) (apiURL : String) (query : Query) :
    Except String (List VNDBEntry) :=
  match Marshal query with
  | .error err => .error err
  | .ok jsonData =>
    match net.Post apiURL "application/json" jsonData with
    | .error err => .error err
    | .ok body =>
      match net.Decode body with
      | .error err => .error err
      | .ok results => .ok results

/-! ## The program -/

def apiURL : String := "https://api.vndb.org/kana/vn"

/-- The names of the fields the program asks for. -/
def fieldNames : List String :=
  ["id", "title", "image.url", "alttitle", "titles.official", "olang", "devstatus",
   "released", "languages", "platforms", "description", "rating", "votecount",
   "length", "length_minutes", "length_votes"]

/-- The query map built in `main` for a trimmed title. -/
def buildQuery (title : String) : Query :=
  [("filters", .list ["search", "=", title]),
   ("fields", .str (Join fieldNames ","))]

/-- The loop `for i, entry := range resp` printing one candidate per record;
`i` is the index of the head of the remaining records. -/
def printCandidates : Nat → List VNDBEntry → World → World
  | _, [], w => w
  | i, entry :: rest, w =>
    printCandidates (i + 1) rest
      (Print (formatInt (i + 1) ++ ". " ++ entry.Title ++ " (ID: " ++ entry.ID ++ ")\n") w)

/-- The slice access `resp[index]`. -/
def elemAt (resp : List VNDBEntry) (index : Int) : Option VNDBEntry :=
  if index < 0 then none else resp.get? index.toNat

def main (t : Terminal) (net : Network) (w0 : World) : World :=
  let w := Print "Enter the title you want to search for: " w0
  let (title, w) := ReadString w
  let title := TrimSpace title
  let query := buildQuery title
  match fetchData net apiURL query with
  | .error err => Print ("Error: " ++ err ++ "\n") w
  | .ok resp =>
    if resp.length = 1 then
      match elemAt resp 0 with
      | some entry => printEntry t entry w
      | none => goPanic w
    else if resp.length > 1 then
      let w := Println "More than one query was found. Printing names and IDs:" w
      let w := printCandidates 0 resp w
      let w := Print "Choose a query by entering the corresponding number: " w
      let (choice, w) := ReadString w
      let choice := TrimSpace choice
      let index := parseChoice choice resp.length
      if index = -1 then
        Println "Invalid choice." w
      else
        match elemAt resp index with
        | some entry => printEntry t entry w
        | none => goPanic w
    else
      Println "No matching query was found." w

/-- Run the program on a given standard input. -/
def run (t : Terminal) (net : Network) (stdin : String) : World :=
  main t net (World.start stdin)

/-! ## Vocabulary of the statements -/

/-- The writes that `printEntry` makes for a record: its formatted block. -/
def block (t : Terminal) (entry : VNDBEntry) : List String :=
  (printEntry t entry (World.start "")).stdout

/-- The `i`-th line (1-based) of the candidate list for a record. -/
def candidateLine (i : Nat) (entry : VNDBEntry) : String :=
  Nat.repr i ++ ". " ++ entry.Title ++ " (ID: " ++ entry.ID ++ ")\n"

def titlePrompt : String := "Enter the title you want to search for: "
def listHeader : String := "More than one query was found. Printing names and IDs:\n"
def choicePrompt : String := "Choose a query by entering the corresponding number: "
def invalidChoice : String := "Invalid choice.\n"
def noMatch : String := "No matching query was found.\n"

/-- The text `sub` occurs in `text` as a contiguous run of characters. -/
def Contains (text sub : String) : Prop := sub.data <:+: text.data

instance (text sub : String) : Decidable (Contains text sub) := by
  unfold Contains; infer_instance

/-- The title the program searches for: the first input line, trimmed. -/
def titleOf (stdin : String) : String :=
  TrimSpace (ReadString (World.start stdin)).1

/-- The choice the program reads when it asks for one: the second input line,
trimmed. -/
def choiceOf (stdin : String) : String :=
  TrimSpace (ReadString (ReadString (World.start stdin)).2).1

/-- What `fetchData` returns for the query built from the input's title. -/
def received (net : Network) (stdin : String) : Except String (List VNDBEntry) :=
  fetchData net apiURL (buildQuery (titleOf stdin))

/-- The input left unread after one line has been taken from it. -/
def dropLine (stdin : String) : String := String.mk (splitLine stdin.toList).2

/-- The first character of a text, if any. -/
def firstChar (s : String) : Option Char := s.data.head?

/-- The line that opens and closes a formatted block. -/
def border : String := Repeat "=" 40 ++ "\n"

/-- The console once the title has been prompted for and read. -/
def afterTitle (stdin : String) : World :=
  (ReadString (Print titlePrompt (World.start stdin))).2

/-- The console once the candidates have been listed and the choice read. -/
def afterChoice (resp : List VNDBEntry) (stdin : String) : World :=
  (ReadString (Print choicePrompt (printCandidates 0 resp
    (Println "More than one query was found. Printing names and IDs:" (afterTitle stdin))))).2

/-- The numbered candidate list for the received records: one line per record,
in order, numbered from 1. -/
def candidateLines (resp : List VNDBEntry) : List String :=
  List.ofFn fun i : Fin resp.length => candidateLine (i.val + 1) (resp.get i)

/-- A network whose decoded answer is always the given list of records. -/
def Network.returning (resp : List VNDBEntry) : Network :=
  ⟨fun _ _ _ => .ok "", fun _ => .ok resp⟩

/-- A network whose POST fails. -/
def Network.unreachable : Network :=
  ⟨fun _ _ _ => .error "connection refused", fun _ => .ok []⟩

/-- A network whose response body does not decode. -/
def Network.garbled : Network :=
  ⟨fun _ _ _ => .ok "<html>", fun _ => .error "invalid character '<'"⟩

/-- A fully populated sample record. -/
def sampleEntry : VNDBEntry :=
  { ID := "v17", Title := "Ever17", Image := ⟨"https://t.vndb.org/cv/17.jpg"⟩,
    AltTitle := "E17", Official := true, OriginalLang := "ja", DevStatus := 0,
    Released := "2002-08-29", Languages := ["en", "ja"], Platforms := ["win", "ps2"],
    Description := "A visual novel.", Rating := .finite false 175 (-1),
    VoteCount := 12000, Length := 4, LengthMinutes := 2400, LengthVotes := 300 }

/-- A second sample record. -/
def sampleEntry2 : VNDBEntry :=
  { sampleEntry with ID := "v11", Title := "Fate/stay night", DevStatus := 99 }

/-- The comma-joined field list, written out. -/
def fieldsText : String :=
  "id,title,image.url,alttitle,titles.official,olang,devstatus,released,languages," ++
  "platforms,description,rating,votecount,length,length_minutes,length_votes"

/-- The characters a write of a formatted block can start with. -/
def blockInitials : List Char :=
  ['=', '\x1b', 'T', 'I', 'A', 'O', 'D', 'R', 'L', 'P', 'V']

/-! ## Reading printed and serialized texts back -/

/-- A digit string is canonical when it is non-empty, all digits, and has no
leading zero unless it is the single digit 0. -/
def isCanonicalDigits (ds : List Char) : Bool :=
  !ds.isEmpty && ds.all isDigit && (ds.head? != some '0' || ds.length == 1)

/-- The text `s` is the decimal numeral of the integer `z`: a minus sign exactly
when `z` is negative, followed by the canonical digits of its magnitude. -/
def isDecimalOf (s : String) (z : Int) : Bool :=
  match s.toList with
  | '-' :: ds => decide (z < 0) && isCanonicalDigits ds && digitsValue ds == z.natAbs
  | ds => decide (0 ≤ z) && isCanonicalDigits ds && digitsValue ds == z.natAbs

/-- Reads a decimal with exactly two fractional digits: an optional minus sign,
canonical integer digits, a point and two digits.  Returns the sign and the
magnitude in hundredths. -/
def readFixed2 (s : String) : Option (Bool × Nat) :=
  let neg : Bool := s.toList.head? == some '-'
  let body := if neg then s.toList.tail else s.toList
  match body.dropWhile isDigit with
  | ['.', a, b] =>
    if isCanonicalDigits (body.takeWhile isDigit) && isDigit a && isDigit b then
      some (neg, digitsValue (body.takeWhile isDigit) * 100 + digitsValue [a, b])
    else none
  | _ => none

/-- Value of a hexadecimal digit. -/
def hexValue (c : Char) : Option Nat :=
  if '0' ≤ c ∧ c ≤ '9' then some (c.toNat - '0'.toNat)
  else if 'a' ≤ c ∧ c ≤ 'f' then some (c.toNat - 'a'.toNat + 10)
  else if 'A' ≤ c ∧ c ≤ 'F' then some (c.toNat - 'A'.toNat + 10)
  else none

/-- The character a two-character JSON escape `\e` stands for (RFC 8259). -/
def unescape (e : Char) : Option Char :=
  if e = '"' then some '"'
  else if e = '\\' then some '\\'
  else if e = '/' then some '/'
  else if e = 'b' then some '\x08'
  else if e = 'f' then some '\x0c'
  else if e = 'n' then some '\n'
  else if e = 'r' then some '\r'
  else if e = 't' then some '\t'
  else none

/-- The code point of a `\uXXXX` escape; surrogate halves are not accepted. -/
def hex4 (a b x y : Char) : Option Char :=
  match hexValue a, hexValue b, hexValue x, hexValue y with
  | some p, some q, some r, some s =>
    let n := ((p * 16 + q) * 16 + r) * 16 + s
    if 0xD800 ≤ n ∧ n ≤ 0xDFFF then none else some (Char.ofNat n)
  | _, _, _, _ => none

/-- Reads the inside of a JSON string literal (RFC 8259), from just after the
opening quote to the closing quote: the text it denotes and the characters
that follow.  Raw control characters and malformed escapes are refused. -/
def readChars : List Char → Option (List Char × List Char)
  | [] => none
  | c :: rest =>
    if c = '"' then some ([], rest)
    else if c = '\\' then
      match rest with
      | [] => none
      | e :: rest1 =>
        if e = 'u' then
          match rest1 with
          | a :: b :: x :: y :: rest2 =>
            match hex4 a b x y, readChars rest2 with
            | some ch, some p => some (ch :: p.1, p.2)
            | _, _ => none
          | _ => none
        else
          match unescape e, readChars rest1 with
          | some ch, some p => some (ch :: p.1, p.2)
          | _, _ => none
    else if c.toNat < 0x20 then none
    else
      match readChars rest with
      | some p => some (c :: p.1, p.2)
      | none => none

/-- Reads a JSON string literal at the front of the input. -/
def readString : List Char → Option (String × List Char)
  | '"' :: rest =>
    match readChars rest with
    | some p => some (String.mk p.1, p.2)
    | none => none
  | _ => none

/-- The text a JSON string literal denotes, when the whole input is one. -/
def decodeString (s : String) : Option String :=
  match readString s.toList with
  | some (v, []) => some v
  | _ => none

/-- Reads the rest of a JSON array of strings once an element has been read:
a closing bracket, or a comma and another string.  The first argument bounds
the number of elements still to come. -/
def readItems : Nat → List Char → Option (List String × List Char)
  | 0, _ => none
  | fuel + 1, cs =>
    match cs with
    | ']' :: rest => some ([], rest)
    | ',' :: rest =>
      match readString rest with
      | some (s, rest1) =>
        match readItems fuel rest1 with
        | some p => some (s :: p.1, p.2)
        | none => none
      | none => none
    | _ => none

/-- Reads a JSON value of the two shapes the query uses: a string, or an array
of strings. -/
def readValue (cs : List Char) : Option (Value × List Char) :=
  match cs with
  | '[' :: rest =>
    if rest.head? = some ']' then some (.list [], rest.tail)
    else
      match readString rest with
      | some (s, rest1) =>
        match readItems rest1.length rest1 with
        | some p => some (.list (s :: p.1), p.2)
        | none => none
      | none => none
  | _ =>
    match readString cs with
    | some (s, rest) => some (.str s, rest)
    | none => none

/-- Reads one member `"key":value` of a JSON object. -/
def readMember (cs : List Char) : Option ((String × Value) × List Char) :=
  match readString cs with
  | some (k, ':' :: rest) =>
    match readValue rest with
    | some (v, rest1) => some ((k, v), rest1)
    | none => none
  | _ => none

/-- Reads the rest of a JSON object once a member has been read: a closing
brace, or a comma and another member. -/
def readMembers : Nat → List Char → Option (List (String × Value) × List Char)
  | 0, _ => none
  | fuel + 1, cs =>
    match cs with
    | '}' :: rest => some ([], rest)
    | ',' :: rest =>
      match readMember rest with
      | some (m, rest1) =>
        match readMembers fuel rest1 with
        | some p => some (m :: p.1, p.2)
        | none => none
      | none => none
    | _ => none

/-- Reads a whole text as a JSON object whose values are strings or arrays of
strings: its members in the order written, or `none` when the text is not
such an object. -/
def parseObject (s : String) : Option (List (String × Value)) :=
  match s.toList with
  | '{' :: rest =>
    if rest = ['}'] then some []
    else
      match readMember rest with
      | some (m, rest1) =>
        match readMembers rest1.length rest1 with
        | some (ms, []) => some (m :: ms)
        | _ => none
      | none => none
  | _ => none

/-- A character the JSON encoder copies unchanged. -/
def isPlainChar (c : Char) : Bool :=
  decide (0x20 ≤ c.toNat) &&
    !(c == '"' || c == '\\' || c == '<' || c == '>' || c == '&') &&
    !(c.toNat == 0x2028 || c.toNat == 0x2029)

/-! ## Auxiliary lemmas -/

theorem printEntry_eq (t : Terminal) (e : VNDBEntry) (w : World) :
    printEntry t e w = { w with stdout := w.stdout ++ block t e } := by
  simp [printEntry, block, Println, Print, World.start]

theorem formatInt_natCast (n : Nat) : formatInt (n : Int) = Nat.repr n := by
  have h : ¬ ((n : Int) < 0) := by omega
  simp [formatInt, h]

theorem printCandidates_aux (resp : List VNDBEntry) : ∀ (i : Nat) (w : World),
    printCandidates i resp w =
      { w with stdout := w.stdout ++
          List.ofFn fun j : Fin resp.length => candidateLine (i + j.val + 1) (resp.get j) } := by
  induction resp with
  | nil => intro i w; simp [printCandidates]
  | cons e rest ih =>
    intro i w
    have hc : formatInt ((i : Int) + 1) = Nat.repr (i + 1) := by
      have := formatInt_natCast (i + 1)
      simpa using this
    simp only [printCandidates, ih, Print, List.length_cons, List.ofFn_succ, hc]
    simp [candidateLine, Nat.add_assoc, Nat.add_comm 1]

theorem printCandidates_eq (resp : List VNDBEntry) (w : World) :
    printCandidates 0 resp w = { w with stdout := w.stdout ++ candidateLines resp } := by
  rw [printCandidates_aux]; simp [candidateLines]

theorem digitChar_isDigit : ∀ m, m < 10 →
    isDigit (Nat.digitChar m) = true ∧ (Nat.digitChar m).toNat - '0'.toNat = m := by
  decide

theorem digitsValue_append_singleton (pre : List Char) (c : Char) :
    digitsValue (pre ++ [c]) = digitsValue pre * 10 + (c.toNat - '0'.toNat) := by
  simp [digitsValue, List.foldl_append]

theorem toDigitsCore_spec : ∀ (fuel n : Nat) (ds : List Char), n < fuel →
    ∃ pre, Nat.toDigitsCore 10 fuel n ds = pre ++ ds ∧ pre ≠ [] ∧
      (∀ c ∈ pre, isDigit c = true) ∧ digitsValue pre = n := by
  intro fuel
  induction fuel with
  | zero => intro n ds h; omega
  | succ fuel ih =>
    intro n ds h
    have hd := digitChar_isDigit (n % 10) (Nat.mod_lt _ (by decide))
    by_cases h0 : n / 10 = 0
    · refine ⟨[Nat.digitChar (n % 10)], ?_, by simp, ?_, ?_⟩
      · simp [Nat.toDigitsCore, h0]
      · intro c hc
        simp at hc
        rw [hc]; exact hd.1
      · have : digitsValue [Nat.digitChar (n % 10)] = (Nat.digitChar (n % 10)).toNat - '0'.toNat := by
          simp [digitsValue]
        rw [this, hd.2]
        omega
    · have hlt : n / 10 < fuel := by omega
      obtain ⟨pre, hpre, hne, hall, hval⟩ := ih (n / 10) (Nat.digitChar (n % 10) :: ds) hlt
      refine ⟨pre ++ [Nat.digitChar (n % 10)], ?_, by simp, ?_, ?_⟩
      · simp [Nat.toDigitsCore, h0, hpre]
      · intro c hc
        rcases List.mem_append.mp hc with hc | hc
        · exact hall c hc
        · simp at hc
          rw [hc]; exact hd.1
      · rw [digitsValue_append_singleton, hval, hd.2]
        omega

theorem repr_spec (n : Nat) :
    (Nat.repr n).toList ≠ [] ∧ (∀ c ∈ (Nat.repr n).toList, isDigit c = true) ∧
      digitsValue (Nat.repr n).toList = n := by
  obtain ⟨pre, hpre, hne, hall, hval⟩ := toDigitsCore_spec (n + 1) n [] (Nat.lt_succ_self n)
  have h : (Nat.repr n).toList = pre := by
    simp [Nat.repr, Nat.toDigits, hpre, List.asString]
  rw [h]
  exact ⟨hne, hall, hval⟩

theorem unsignedPart_of_digit (c : Char) (cs : List Char) (h : isDigit c = true) :
    unsignedPart (c :: cs) = c :: cs := by
  have h1 : c ≠ '-' := by rintro rfl; revert h; decide
  have h2 : c ≠ '+' := by rintro rfl; revert h; decide
  unfold unsignedPart
  split
  · rename_i heq; simp at heq; exact absurd heq.1 h1
  · rename_i heq; simp at heq; exact absurd heq.1 h2
  · rfl

/-- Reading back a decimal numeral: `Atoi` returns the number when it fits the
64-bit `int`, and a range error otherwise. -/
theorem Atoi_repr (n : Nat) :
    Atoi (Nat.repr n) = if n < 2 ^ 63 then some (n : Int) else none := by
  obtain ⟨hne, hall, hval⟩ := repr_spec n
  obtain ⟨c, cs, hcs⟩ : ∃ c cs, (Nat.repr n).toList = c :: cs := by
    cases h : (Nat.repr n).toList with
    | nil => exact absurd h hne
    | cons c cs => exact ⟨c, cs, rfl⟩
  have hc : isDigit c = true := hall c (by rw [hcs]; simp)
  have hu : unsignedPart (Nat.repr n).toList = (Nat.repr n).toList := by
    rw [hcs]; exact unsignedPart_of_digit c cs hc
  have hnum : isNumeral (Nat.repr n) = true := by
    simp only [isNumeral, hu]
    simp only [Bool.and_eq_true, Bool.not_eq_true', List.all_eq_true, List.isEmpty_eq_false]
    exact ⟨by simpa [List.isEmpty_iff] using hne, hall⟩
  have hneg : ¬ ((Nat.repr n).toList.head? = some '-') := by
    rw [hcs]; simp
    rintro rfl; revert hc; decide
  simp only [Atoi, hnum, hu, hval, hneg, if_true, if_false]

/-- The console once the title has been prompted for and read. -/
theorem main_eq (t : Terminal) (net : Network) (stdin : String) :
    run t net stdin =
      match received net stdin with
      | .error err => Print ("Error: " ++ err ++ "\n") (afterTitle stdin)
      | .ok resp =>
        if resp.length = 1 then
          match elemAt resp 0 with
          | some entry => printEntry t entry (afterTitle stdin)
          | none => goPanic (afterTitle stdin)
        else if resp.length > 1 then
          if parseChoice (choiceOf stdin) resp.length = -1 then
            Println "Invalid choice." (afterChoice resp stdin)
          else
            match elemAt resp (parseChoice (choiceOf stdin) resp.length) with
            | some entry => printEntry t entry (afterChoice resp stdin)
            | none => goPanic (afterChoice resp stdin)
        else Println "No matching query was found." (afterTitle stdin) := by
  have h1 : (ReadString (Print "Enter the title you want to search for: " (World.start stdin))).1
      = (ReadString (World.start stdin)).1 := rfl
  unfold run main
  simp only [h1]
  show (match received net stdin with
    | .error err => _
    | .ok resp => _) = _
  cases received net stdin with
  | error err => rfl
  | ok resp =>
    have h2 : choiceOf stdin = TrimSpace (ReadString (Print choicePrompt (printCandidates 0 resp
        (Println "More than one query was found. Printing names and IDs:"
          (afterTitle stdin))))).1 := by
      rw [printCandidates_eq]; rfl
    rw [h2]
    rfl

theorem afterTitle_eq (stdin : String) :
    afterTitle stdin = ⟨dropLine stdin, [titlePrompt], 1, false⟩ := rfl

theorem afterChoice_eq (resp : List VNDBEntry) (stdin : String) :
    afterChoice resp stdin =
      ⟨dropLine (dropLine stdin),
       [titlePrompt, listHeader] ++ candidateLines resp ++ [choicePrompt], 2, false⟩ := by
  unfold afterChoice
  rw [printCandidates_eq]
  simp [ReadString, Print, Println, afterTitle_eq, dropLine, listHeader]

theorem elemAt_natCast (resp : List VNDBEntry) (i : Nat) (h : i < resp.length) :
    elemAt resp (i : Int) = some (resp.get ⟨i, h⟩) := by
  have h0 : ¬ ((i : Int) < 0) := by omega
  simp [elemAt, h0, List.getElem?_eq_getElem h]

/-- An accepted choice: the decimal numeral of `k` with `1 ≤ k ≤ N`. -/
theorem parseChoice_repr (k : Nat) (N : Nat) (h1 : 1 ≤ k) (h2 : k ≤ N) (hN : N < 2 ^ 63) :
    parseChoice (Nat.repr k) (N : Int) = ((k - 1 : Nat) : Int) := by
  have hk : k < 2 ^ 63 := by omega
  have hc : (1 : Int) ≤ (k : Int) ∧ (k : Int) ≤ (N : Int) := by omega
  simp only [parseChoice, Atoi_repr, hk, if_true, ge_iff_le, hc, and_self]
  omega

/-- The result of `parseChoice` is `-1` or an index below the count. -/
theorem parseChoice_range (s : String) (N : Nat) :
    parseChoice s (N : Int) = -1 ∨ ∃ i : Nat, i < N ∧ parseChoice s (N : Int) = (i : Int) := by
  unfold parseChoice
  cases Atoi s with
  | none => exact Or.inl rfl
  | some num =>
    by_cases h : num ≥ 1 ∧ num ≤ (N : Int)
    · right
      refine ⟨(num - 1).toNat, by omega, ?_⟩
      simp only [h, and_self, if_true]
      omega
    · left
      simp [h]

theorem block_eq (t : Terminal) (e : VNDBEntry) : block t e =
    [border,
     CyanString t ("Title: " ++ e.Title) ++ "\n",
     border,
     "ID: " ++ YellowString t e.ID ++ "\n",
     "Image URL: " ++ BlueString t e.Image.URL ++ "\n",
     "Alternate Title: " ++ e.AltTitle ++ "\n",
     "Official Title: " ++ GreenString t (formatBool e.Official) ++ "\n",
     "Original Language: " ++ MagentaString t e.OriginalLang ++ "\n",
     "Development Status: " ++ formatDevStatus t e.DevStatus ++ "\n",
     "Release Date: " ++ e.Released ++ "\n",
     "Languages: " ++ formatList t e.Languages ++ "\n",
     "Platforms: " ++ formatList t e.Platforms ++ "\n",
     "Description: " ++ e.Description ++ "\n",
     "Rating: " ++ YellowString t (formatFloat2 e.Rating) ++ "\n",
     "Vote Count: " ++ formatInt e.VoteCount ++ "\n",
     "Length: " ++ formatInt e.Length ++ "\n",
     "Length in Minutes: " ++ formatInt e.LengthMinutes ++ "\n",
     "Length Votes: " ++ formatInt e.LengthVotes ++ "\n",
     border] := by
  simp [block, printEntry, Println, Print, World.start, border]

theorem firstChar_append (a b : String) (c : Char) (h : firstChar a = some c) :
    firstChar (a ++ b) = some c := by
  unfold firstChar at *
  rw [String.data_append]
  cases ha : a.data with
  | nil => rw [ha] at h; simp at h
  | cons x xs => rw [ha] at h; simpa using h

theorem firstChar_colorString (t : Terminal) (p : Attribute) (s : String) (c : Char)
    (h : firstChar s = some c) :
    firstChar (colorString t p s) = some c ∨ firstChar (colorString t p s) = some '\x1b' := by
  unfold colorString
  cases t.NoColor with
  | true => left; simpa using h
  | false =>
    right
    simp only [Bool.false_eq_true, if_false, String.append_assoc]
    exact firstChar_append _ _ _ rfl

theorem block_firstChar (t : Terminal) (e : VNDBEntry) :
    ∀ w ∈ block t e, ∃ c ∈ blockInitials, firstChar w = some c := by
  intro w hw
  rw [block_eq] at hw
  simp only [List.mem_cons, List.mem_singleton, List.not_mem_nil, or_false] at hw
  have hT : firstChar ("Title: " ++ e.Title) = some 'T' := firstChar_append _ _ _ rfl
  rcases hw with h | h | h | h | h | h | h | h | h | h | h | h | h | h | h | h | h | h | h <;>
    subst h
  · exact ⟨'=', by decide, by decide⟩
  · rcases firstChar_colorString t .FgCyan _ _ hT with h | h
    · exact ⟨'T', by decide, firstChar_append _ _ _ h⟩
    · exact ⟨'\x1b', by decide, firstChar_append _ _ _ h⟩
  · exact ⟨'=', by decide, by decide⟩
  · exact ⟨'I', by decide, by simp only [String.append_assoc]; exact firstChar_append _ _ _ rfl⟩
  · exact ⟨'I', by decide, by simp only [String.append_assoc]; exact firstChar_append _ _ _ rfl⟩
  · exact ⟨'A', by decide, by simp only [String.append_assoc]; exact firstChar_append _ _ _ rfl⟩
  · exact ⟨'O', by decide, by simp only [String.append_assoc]; exact firstChar_append _ _ _ rfl⟩
  · exact ⟨'O', by decide, by simp only [String.append_assoc]; exact firstChar_append _ _ _ rfl⟩
  · exact ⟨'D', by decide, by simp only [String.append_assoc]; exact firstChar_append _ _ _ rfl⟩
  · exact ⟨'R', by decide, by simp only [String.append_assoc]; exact firstChar_append _ _ _ rfl⟩
  · exact ⟨'L', by decide, by simp only [String.append_assoc]; exact firstChar_append _ _ _ rfl⟩
  · exact ⟨'P', by decide, by simp only [String.append_assoc]; exact firstChar_append _ _ _ rfl⟩
  · exact ⟨'D', by decide, by simp only [String.append_assoc]; exact firstChar_append _ _ _ rfl⟩
  · exact ⟨'R', by decide, by simp only [String.append_assoc]; exact firstChar_append _ _ _ rfl⟩
  · exact ⟨'V', by decide, by simp only [String.append_assoc]; exact firstChar_append _ _ _ rfl⟩
  · exact ⟨'L', by decide, by simp only [String.append_assoc]; exact firstChar_append _ _ _ rfl⟩
  · exact ⟨'L', by decide, by simp only [String.append_assoc]; exact firstChar_append _ _ _ rfl⟩
  · exact ⟨'L', by decide, by simp only [String.append_assoc]; exact firstChar_append _ _ _ rfl⟩
  · exact ⟨'=', by decide, by decide⟩

theorem candidateLine_firstChar (i : Nat) (e : VNDBEntry) :
    ∃ c, isDigit c = true ∧ firstChar (candidateLine i e) = some c := by
  obtain ⟨hne, hall, -⟩ := repr_spec i
  cases h : (Nat.repr i).toList with
  | nil => exact absurd h hne
  | cons c cs =>
    refine ⟨c, hall c (by rw [h]; simp), ?_⟩
    unfold candidateLine
    simp only [String.append_assoc]
    apply firstChar_append
    unfold firstChar
    have : (Nat.repr i).data = c :: cs := h
    rw [this]; rfl

theorem digit_not_initial (c : Char) (h : isDigit c = true) : c ∉ blockInitials := by
  intro hc
  simp only [blockInitials, List.mem_cons, List.mem_singleton, List.not_mem_nil, or_false] at hc
  rcases hc with h' | h' | h' | h' | h' | h' | h' | h' | h' | h' | h' <;>
    (subst h'; revert h; decide)

theorem candidateLine_not_mem_block (t : Terminal) (i : Nat) (e r : VNDBEntry) :
    candidateLine i e ∉ block t r := by
  intro hmem
  obtain ⟨c, hc, hfc⟩ := block_firstChar t r _ hmem
  obtain ⟨d, hd, hfd⟩ := candidateLine_firstChar i e
  rw [hfd] at hfc
  have hcd : d = c := Option.some.inj hfc
  subst hcd
  exact digit_not_initial d hd hc

theorem border_not_candidate (resp : List VNDBEntry) : border ∉ candidateLines resp := by
  intro hmem
  simp only [candidateLines, List.mem_ofFn, Set.mem_range] at hmem
  obtain ⟨j, hj⟩ := hmem
  obtain ⟨d, hd, hfd⟩ := candidateLine_firstChar (j.val + 1) (resp.get j)
  rw [hj] at hfd
  have : firstChar border = some '=' := by decide
  rw [this] at hfd
  have hd2 : d = '=' := (Option.some.inj hfd).symm
  subst hd2
  revert hd; decide

theorem border_mem_block (t : Terminal) (e : VNDBEntry) : border ∈ block t e := by
  rw [block_eq]; simp

theorem Contains_refl (s : String) : Contains s s := ⟨[], [], by simp⟩

theorem Contains_trans {a b c : String} (h1 : Contains a b) (h2 : Contains b c) :
    Contains a c := by
  obtain ⟨p1, q1, e1⟩ := h1
  obtain ⟨p2, q2, e2⟩ := h2
  exact ⟨p1 ++ p2, q2 ++ q1, by rw [← e1, ← e2]; simp⟩

theorem Contains_mid (a s b : String) : Contains (a ++ s ++ b) s := by
  unfold Contains
  simp only [String.data_append]
  exact ⟨a.data, b.data, rfl⟩

theorem Contains_colorString (t : Terminal) (p : Attribute) (s : String) :
    Contains (colorString t p s) s := by
  unfold colorString
  cases t.NoColor with
  | true => exact Contains_refl s
  | false => exact Contains_mid _ s _

theorem Contains_join (ws : List String) (w s : String) (hw : w ∈ ws) (h : Contains w s) :
    Contains (String.join ws) s := by
  unfold Contains at *
  rw [String.data_join]
  obtain ⟨pre, post, hsplit⟩ := List.append_of_mem hw
  subst hsplit
  obtain ⟨p, q, e⟩ := h
  refine ⟨(pre.map String.data).flatten ++ p, q ++ (post.map String.data).flatten, ?_⟩
  simp only [List.map_append, List.map_cons, List.flatten_append, List.flatten_cons, ← e]
  simp

theorem Contains_Join (sep : String) : ∀ (items : List String) (x : String), x ∈ items →
    Contains (Join items sep) x
  | [], _, h => by simp at h
  | [a], x, h => by
    simp at h; subst h; exact Contains_refl _
  | a :: b :: rest, x, h => by
    rcases List.mem_cons.mp h with h | h
    · subst h
      have := Contains_mid "" x (sep ++ Join (b :: rest) sep)
      simpa [Join, String.append_assoc] using this
    · have ih := Contains_Join sep (b :: rest) x h
      have h2 : Contains (a ++ sep ++ Join (b :: rest) sep) (Join (b :: rest) sep) := by
        have := Contains_mid (a ++ sep) (Join (b :: rest) sep) ""
        simpa using this
      exact Contains_trans h2 ih

/-- A value printed between a label and the end of its line occurs in the block's text. -/
theorem Contains_line (ws : List String) (label v s : String)
    (hw : label ++ v ++ "\n" ∈ ws) (h : Contains v s) : Contains (String.join ws) s :=
  Contains_join ws _ s hw (Contains_trans (Contains_mid label v "\n") h)

/-- The writes of a run that received more than one record. -/
theorem run_many (t : Terminal) (net : Network) (stdin : String) (resp : List VNDBEntry)
    (hrecv : received net stdin = .ok resp) (hN : 1 < resp.length) :
    run t net stdin =
      if parseChoice (choiceOf stdin) resp.length = -1 then
        Println "Invalid choice." (afterChoice resp stdin)
      else
        match elemAt resp (parseChoice (choiceOf stdin) resp.length) with
        | some entry => printEntry t entry (afterChoice resp stdin)
        | none => goPanic (afterChoice resp stdin) := by
  rw [main_eq, hrecv]
  have h1 : ¬ resp.length = 1 := by omega
  simp only [h1, if_false, gt_iff_lt, hN, if_true]

/-- The writes of a run whose choice was rejected. -/
theorem run_rejected (t : Terminal) (net : Network) (stdin : String) (resp : List VNDBEntry)
    (hrecv : received net stdin = .ok resp) (hN : 1 < resp.length)
    (hrej : parseChoice (choiceOf stdin) resp.length = -1) :
    run t net stdin =
      ⟨dropLine (dropLine stdin),
       [titlePrompt, listHeader] ++ candidateLines resp ++ [choicePrompt, invalidChoice],
       2, false⟩ := by
  rw [run_many t net stdin resp hrecv hN, hrej, afterChoice_eq]
  simp [Println, Print, invalidChoice]

/-- The writes of a run whose choice was the index `i` of a record. -/
theorem run_accepted (t : Terminal) (net : Network) (stdin : String) (resp : List VNDBEntry)
    (hrecv : received net stdin = .ok resp) (hN : 1 < resp.length)
    (i : Nat) (hi : i < resp.length)
    (hacc : parseChoice (choiceOf stdin) resp.length = (i : Int)) :
    run t net stdin =
      ⟨dropLine (dropLine stdin),
       [titlePrompt, listHeader] ++ candidateLines resp ++ [choicePrompt] ++
         block t (resp.get ⟨i, hi⟩),
       2, false⟩ := by
  have hne : ¬ ((i : Int) = -1) := by omega
  rw [run_many t net stdin resp hrecv hN, hacc, elemAt_natCast resp i hi, afterChoice_eq]
  simp only [hne, if_false, printEntry_eq]

/-- No write before the block of a listed run is a border line. -/
theorem border_not_before (resp : List VNDBEntry) :
    border ∉ [titlePrompt, listHeader] ++ candidateLines resp ++ [choicePrompt] := by
  intro h
  simp only [List.mem_append, List.mem_cons, List.mem_singleton, List.not_mem_nil,
    or_false] at h
  rcases h with (h | h) | h
  · rcases h with h | h
    · revert h; decide
    · revert h; decide
  · exact border_not_candidate resp h
  · revert h; decide

/-- A run of writes that starts with `x`, has the length of `blk`, and occurs in
`pre ++ blk` where `x` does not occur in `pre`, is `blk` itself. -/
theorem run_unique {α : Type} (pre blk blk2 rest : List α) (x : α) (hx : x ∉ pre)
    (h2 : blk2 = x :: rest) (hlen : blk2.length = blk.length)
    (h : blk2 <:+: pre ++ blk) : blk2 = blk := by
  obtain ⟨a, b, hab⟩ := h
  have hlen2 := congrArg List.length hab
  simp only [List.length_append] at hlen2
  rw [List.append_assoc] at hab
  rcases List.append_eq_append_iff.mp hab with ⟨c, hc1, hc2⟩ | ⟨c, hc1, hc2⟩
  · -- `pre = a ++ c`, `blk2 ++ b = c ++ blk`
    cases c with
    | nil =>
      simp only [List.nil_append] at hc2
      have hb : b = [] := by
        have := congrArg List.length hc2
        simp only [List.length_append] at this
        exact List.eq_nil_of_length_eq_zero (by omega)
      rw [hb, List.append_nil] at hc2
      exact hc2
    | cons y ys =>
      rw [h2] at hc2
      simp only [List.cons_append, List.cons.injEq] at hc2
      exfalso
      apply hx
      rw [hc1, hc2.1]
      simp
  · -- `a = pre ++ c`, `blk = c ++ blk2 ++ b`
    have := congrArg List.length hc1
    have := congrArg List.length hc2
    simp only [List.length_append] at *
    have hc : c = [] := List.eq_nil_of_length_eq_zero (by omega)
    have hb : b = [] := List.eq_nil_of_length_eq_zero (by omega)
    rw [hc, hb] at hc2
    simpa using hc2.symm

theorem block_length (t : Terminal) (e : VNDBEntry) : (block t e).length = 19 := by
  rw [block_eq]; rfl

/-- A write whose first character no block line starts with is not part of a block. -/
theorem not_mem_block_of_firstChar (t : Terminal) (e : VNDBEntry) (w : String) (c : Char)
    (hw : firstChar w = some c) (hc : c ∉ blockInitials) : w ∉ block t e := by
  intro hmem
  obtain ⟨d, hd, hfd⟩ := block_firstChar t e w hmem
  rw [hw] at hfd
  have : c = d := Option.some.inj hfd
  subst this
  exact hc hd

theorem candidateLine_ne_of_firstChar (i : Nat) (e : VNDBEntry) (w : String) (c : Char)
    (hw : firstChar w = some c) (hc : isDigit c = false) : candidateLine i e ≠ w := by
  intro heq
  obtain ⟨d, hd, hfd⟩ := candidateLine_firstChar i e
  rw [heq, hw] at hfd
  have : c = d := Option.some.inj hfd
  subst this
  rw [hd] at hc
  exact Bool.noConfusion hc

/-- What `fetchData` returns depends on the input only through the title. -/
theorem received_congr (net : Network) (stdin stdin2 : String)
    (h : titleOf stdin2 = titleOf stdin) : received net stdin2 = received net stdin := by
  unfold received; rw [h]

theorem digitChar_ne_zero : ∀ m, m < 10 → m ≠ 0 → Nat.digitChar m ≠ '0' := by
  decide

theorem toDigitsCore_head : ∀ (fuel n : Nat) (ds : List Char), n < fuel → n ≠ 0 →
    (Nat.toDigitsCore 10 fuel n ds).head? ≠ some '0' := by
  intro fuel
  induction fuel with
  | zero => intro n ds h; omega
  | succ fuel ih =>
    intro n ds h hn
    by_cases h0 : n / 10 = 0
    · have hm : n % 10 ≠ 0 := by omega
      have := digitChar_ne_zero (n % 10) (Nat.mod_lt _ (by decide)) hm
      simp [Nat.toDigitsCore, h0, this]
    · have hlt : n / 10 < fuel := by omega
      have := ih (n / 10) (Nat.digitChar (n % 10) :: ds) hlt h0
      simpa [Nat.toDigitsCore, h0] using this

/-- The decimal text of a natural number is canonical and has its value. -/
theorem repr_canonical (n : Nat) :
    isCanonicalDigits (Nat.repr n).toList = true ∧ digitsValue (Nat.repr n).toList = n := by
  obtain ⟨hne, hall, hval⟩ := repr_spec n
  refine ⟨?_, hval⟩
  have hhead : (Nat.repr n).toList.head? ≠ some '0' ∨ (Nat.repr n).toList.length = 1 := by
    by_cases hn : n = 0
    · right; subst hn; decide
    · left
      have := toDigitsCore_head (n + 1) n [] (Nat.lt_succ_self n) hn
      simpa [Nat.repr, Nat.toDigits, List.asString] using this
  simp only [isCanonicalDigits, Bool.and_eq_true, Bool.not_eq_true', List.all_eq_true,
    Bool.or_eq_true, bne_iff_ne, ne_eq, beq_iff_eq]
  exact ⟨⟨by simpa [List.isEmpty_iff] using hne, hall⟩, hhead⟩

theorem repr_head_digit (n : Nat) :
    ∃ c cs, (Nat.repr n).toList = c :: cs ∧ isDigit c = true := by
  obtain ⟨hne, hall, -⟩ := repr_spec n
  cases h : (Nat.repr n).toList with
  | nil => exact absurd h hne
  | cons c cs => exact ⟨c, cs, rfl, hall c (by rw [h]; simp)⟩

/-- The `%d` text of an integer is its decimal numeral. -/
theorem formatInt_isDecimalOf (z : Int) : isDecimalOf (formatInt z) z = true := by
  by_cases hz : z < 0
  · obtain ⟨hc, hv⟩ := repr_canonical z.natAbs
    have hl : (formatInt z).toList = '-' :: (Nat.repr z.natAbs).toList := by
      simp [formatInt, hz]
    unfold isDecimalOf
    rw [hl]
    simp only [hz, decide_True, Bool.true_and, Bool.and_eq_true, beq_iff_eq]
    exact ⟨hc, hv⟩
  · obtain ⟨hc, hv⟩ := repr_canonical z.toNat
    obtain ⟨c, cs, hcs, hd⟩ := repr_head_digit z.toNat
    have hl : (formatInt z).toList = c :: cs := by
      simp [formatInt, hz, ← hcs]
    have hcm : c ≠ '-' := by rintro rfl; revert hd; decide
    have hz0 : 0 ≤ z := by omega
    have hnat : z.toNat = z.natAbs := by omega
    rw [hcs] at hc hv
    unfold isDecimalOf
    rw [hl]
    split
    · rename_i heq; simp at heq; exact absurd heq.1 hcm
    · simp [hz0, hc, hv, hnat]

/-- Reading the `%d` text of a 64-bit integer back gives the integer. -/
theorem Atoi_formatInt (z : Int) (hlo : -(2 : Int) ^ 63 ≤ z) (hhi : z < 2 ^ 63) :
    Atoi (formatInt z) = some z := by
  by_cases hz : z < 0
  · obtain ⟨hne, hall, hval⟩ := repr_spec z.natAbs
    have hl : (formatInt z).toList = '-' :: (Nat.repr z.natAbs).toList := by
      simp [formatInt, hz]
    have hnum : isNumeral (formatInt z) = true := by
      simp only [isNumeral, hl, unsignedPart]
      simp only [Bool.and_eq_true, Bool.not_eq_true', List.all_eq_true, List.isEmpty_eq_false]
      exact ⟨by simpa [List.isEmpty_iff] using hne, hall⟩
    have hb : z.natAbs ≤ 2 ^ 63 := by omega
    simp only [Atoi, hnum, hl, unsignedPart, hval, List.head?_cons, if_true, hb]
    congr 1
    omega
  · have h0 : z = ((z.toNat : Nat) : Int) := by omega
    have hf : formatInt z = Nat.repr z.toNat := by simp [formatInt, hz]
    have hb : z.toNat < 2 ^ 63 := by omega
    rw [hf, Atoi_repr, if_pos hb, ← h0]

theorem pad2_toList : ∀ m, m < 100 →
    (pad2 m).toList = [Nat.digitChar (m / 10), Nat.digitChar (m % 10)] := by
  decide

theorem span_digits (l r : List Char) (x : Char) (hl : ∀ c ∈ l, isDigit c = true)
    (hx : isDigit x = false) :
    (l ++ x :: r).takeWhile isDigit = l ∧ (l ++ x :: r).dropWhile isDigit = x :: r := by
  induction l with
  | nil => simp [List.takeWhile, List.dropWhile, hx]
  | cons c cs ih =>
    have hc : isDigit c = true := hl c (by simp)
    have := ih (fun d hd => hl d (by simp [hd]))
    simp [List.takeWhile, List.dropWhile, hc, this.1, this.2]

/-- Reading the `%.2f` text of a finite value back gives its sign and its
magnitude in hundredths. -/
theorem readFixed2_formatFloat2 (neg : Bool) (mant : Nat) (exp : Int) :
    readFixed2 (formatFloat2 (.finite neg mant exp)) = some (neg, hundredths mant exp) := by
  obtain ⟨hc, hv⟩ := repr_canonical (hundredths mant exp / 100)
  obtain ⟨hne, hall, -⟩ := repr_spec (hundredths mant exp / 100)
  obtain ⟨c, cs, hcs, hd⟩ := repr_head_digit (hundredths mant exp / 100)
  have hm : hundredths mant exp % 100 < 100 := Nat.mod_lt _ (by decide)
  have hp := pad2_toList _ hm
  have hd1 := digitChar_isDigit (hundredths mant exp % 100 / 10) (by omega)
  have hd2 := digitChar_isDigit (hundredths mant exp % 100 % 10) (by omega)
  have hspan := span_digits (Nat.repr (hundredths mant exp / 100)).toList
    (pad2 (hundredths mant exp % 100)).toList '.' hall (by decide)
  rw [hp] at hspan
  have hcm : c ≠ '-' := by rintro rfl; revert hd; decide
  have hval : digitsValue [Nat.digitChar (hundredths mant exp % 100 / 10),
      Nat.digitChar (hundredths mant exp % 100 % 10)] = hundredths mant exp % 100 := by
    simp only [digitsValue, List.foldl, hd1.2, hd2.2]
    omega
  have hbody : (Nat.repr (hundredths mant exp / 100) ++ "." ++
      pad2 (hundredths mant exp % 100)).toList =
      (Nat.repr (hundredths mant exp / 100)).toList ++
        '.' :: (pad2 (hundredths mant exp % 100)).toList := by
    simp [String.toList, String.data_append]
  have hsum : hundredths mant exp / 100 * 100 + hundredths mant exp % 100 =
      hundredths mant exp := by omega
  cases neg with
  | true =>
    have hl : (formatFloat2 (.finite true mant exp)).toList =
        '-' :: ((Nat.repr (hundredths mant exp / 100)).toList ++
          '.' :: (pad2 (hundredths mant exp % 100)).toList) := by
      simp [formatFloat2, String.toList, String.data_append]
    unfold readFixed2
    simp only [hl, List.head?_cons, beq_self_eq_true, if_true, List.tail_cons, hspan.1,
      hspan.2, hp, hc, hd1.1, hd2.1, Bool.and_self, hv, hval, hsum]
  | false =>
    have hl : (formatFloat2 (.finite false mant exp)).toList =
        (Nat.repr (hundredths mant exp / 100)).toList ++
          '.' :: (pad2 (hundredths mant exp % 100)).toList := by
      simp [formatFloat2, String.toList, String.data_append]
    have hh : ((Nat.repr (hundredths mant exp / 100)).toList ++
          '.' :: (pad2 (hundredths mant exp % 100)).toList).head? ≠ some '-' := by
      rw [hcs]; simpa using hcm
    unfold readFixed2
    have hb : (((Nat.repr (hundredths mant exp / 100)).toList ++
          '.' :: (pad2 (hundredths mant exp % 100)).toList).head? == some '-') = false := by
      simpa using hh
    rw [hp] at hb
    simp only [hl, hp, hb, Bool.false_eq_true, if_false, hspan.1,
      hspan.2, hp, hc, hd1.1, hd2.1, Bool.and_self, hv, hval, if_true, hsum]

/-- Rounding to nearest leaves an error of at most half a unit. -/
theorem roundHalfEven_near (num den : Nat) (hden : 0 < den) :
    2 * (roundHalfEven num den * den) ≤ 2 * num + den ∧
    2 * num ≤ 2 * (roundHalfEven num den * den) + den := by
  have hdm := Nat.div_add_mod num den
  have hlt := Nat.mod_lt num hden
  have hmul : den * (num / den) = (num / den) * den := Nat.mul_comm _ _
  have hsucc : (num / den + 1) * den = (num / den) * den + den := Nat.succ_mul _ _
  unfold roundHalfEven
  simp only
  split
  · omega
  · split
    · rw [hsucc]; omega
    · split
      · omega
      · rw [hsucc]; omega

/-- The hundredths printed for a finite value are an integer nearest to one
hundred times its magnitude `mant * 2^exp`. -/
theorem hundredths_near (mant : Nat) (exp : Int) :
    2 * (hundredths mant exp * 2 ^ (-exp).toNat) ≤
      2 * (mant * 100 * 2 ^ exp.toNat) + 2 ^ (-exp).toNat ∧
    2 * (mant * 100 * 2 ^ exp.toNat) ≤
      2 * (hundredths mant exp * 2 ^ (-exp).toNat) + 2 ^ (-exp).toNat := by
  unfold hundredths
  by_cases h : 0 ≤ exp
  · have h1 : (-exp).toNat = 0 := by omega
    have h2 : mant * 2 ^ exp.toNat * 100 = mant * 100 * 2 ^ exp.toNat := by
      rw [Nat.mul_assoc, Nat.mul_comm (2 ^ exp.toNat) 100, ← Nat.mul_assoc]
    simp only [h, if_true, h1, pow_zero, Nat.mul_one, h2]
    omega
  · have h1 : exp.toNat = 0 := by omega
    simp only [h, if_false, h1, pow_zero, Nat.mul_one]
    exact roundHalfEven_near (mant * 100) (2 ^ (-exp).toNat) (Nat.pow_pos (by decide))

theorem hexValue_digitChar : ∀ k, k < 16 → hexValue (Nat.digitChar k) = some k := by
  decide

theorem hex4_low (c : Char) (h : c.toNat < 0x80) :
    hex4 '0' '0' (Nat.digitChar (c.toNat / 16)) (Nat.digitChar (c.toNat % 16)) = some c := by
  have h0 : hexValue '0' = some 0 := by decide
  have h1 := hexValue_digitChar (c.toNat / 16) (by omega)
  have h2 := hexValue_digitChar (c.toNat % 16) (by omega)
  have hn : ((0 * 16 + 0) * 16 + c.toNat / 16) * 16 + c.toNat % 16 = c.toNat := by omega
  have hs : ¬ (0xD800 ≤ c.toNat ∧ c.toNat ≤ 0xDFFF) := by omega
  simp only [hex4, h0, h1, h2, hn, hs, if_false, Char.ofNat_toNat]

theorem hex4_separator (c : Char) (h : c.toNat = 0x2028 ∨ c.toNat = 0x2029) :
    hex4 '2' '0' '2' (Nat.digitChar (c.toNat % 16)) = some c := by
  have h0 : hexValue '0' = some 0 := by decide
  have h2 : hexValue '2' = some 2 := by decide
  have h3 := hexValue_digitChar (c.toNat % 16) (by omega)
  have hn : ((2 * 16 + 0) * 16 + 2) * 16 + c.toNat % 16 = c.toNat := by omega
  have hs : ¬ (0xD800 ≤ c.toNat ∧ c.toNat ≤ 0xDFFF) := by omega
  simp only [hex4, h0, h2, h3, hn, hs, if_false, Char.ofNat_toNat]

/-- Reading back one encoded character. -/
theorem readChars_encodeChar (c : Char) (cs : List Char) (p : List Char × List Char)
    (h : readChars cs = some p) :
    readChars (encodeChar c ++ cs) = some (c :: p.1, p.2) := by
  unfold encodeChar
  split_ifs with h1 h2 h3 h4 h5 h6 h7 h8
  · rcases h1 with rfl | rfl <;> (rw [List.cons_append, readChars.eq_def]; simp [unescape, h])
  · subst h2; rw [List.cons_append, readChars.eq_def]; simp [unescape, h]
  · subst h3; rw [List.cons_append, readChars.eq_def]; simp [unescape, h]
  · subst h4; rw [List.cons_append, readChars.eq_def]; simp [unescape, h]
  · subst h5; rw [List.cons_append, readChars.eq_def]; simp [unescape, h]
  · subst h6; rw [List.cons_append, readChars.eq_def]; simp [unescape, h]
  · have hlow : c.toNat < 0x80 := by
      rcases h7 with h7 | rfl | rfl | rfl
      · omega
      · decide
      · decide
      · decide
    have := hex4_low c hlow
    rw [List.cons_append, readChars.eq_def]
    simp [this, h]
  · have := hex4_separator c h8
    rw [List.cons_append, readChars.eq_def]
    simp [this, h]
  · have hq : c ≠ '"' := fun e => h1 (Or.inr e)
    have hb : c ≠ '\\' := fun e => h1 (Or.inl e)
    have hc : ¬ c.toNat < 0x20 := fun e => h7 (Or.inl e)
    rw [List.cons_append, readChars.eq_def]
    simp [hq, hb, hc, h]

/-- Reading back an encoded text up to its closing quote. -/
theorem readChars_encode (s tail : List Char) :
    readChars (s.flatMap encodeChar ++ '"' :: tail) = some (s, tail) := by
  induction s with
  | nil => rw [List.flatMap_nil, List.nil_append, readChars.eq_def]; simp
  | cons c cs ih =>
    have := readChars_encodeChar c _ _ ih
    simpa [List.flatMap_cons, List.append_assoc] using this

theorem encodeString_toList (s : String) :
    (encodeString s).toList = '"' :: (s.toList.flatMap encodeChar ++ ['"']) := by
  simp [encodeString, String.toList, String.data_append]

/-- Reading back a JSON string literal written by the encoder. -/
theorem readString_encodeString (s : String) (tail : List Char) :
    readString ((encodeString s).toList ++ tail) = some (s, tail) := by
  rw [encodeString_toList]
  have := readChars_encode s.toList tail
  simp only [List.cons_append, List.append_assoc, List.singleton_append, List.nil_append,
    readString, this]
  rfl

theorem decodeString_encodeString (s : String) : decodeString (encodeString s) = some s := by
  have := readString_encodeString s []
  rw [List.append_nil] at this
  unfold decodeString
  rw [this]

theorem encodeString_head (s : String) (tail : List Char) :
    ∃ r, (encodeString s).toList ++ tail = '"' :: r := by
  rw [encodeString_toList]; exact ⟨_, rfl⟩

/-- Reading back the elements of an encoded array after its first element. -/
theorem readItems_encode : ∀ (items : List String) (tail : List Char) (fuel : Nat),
    items.length < fuel →
    readItems fuel ((items.flatMap fun s => ',' :: (encodeString s).toList) ++ ']' :: tail) =
      some (items, tail) := by
  intro items
  induction items with
  | nil =>
    intro tail fuel h
    cases fuel with
    | zero => omega
    | succ f => simp [readItems]
  | cons s rest ih =>
    intro tail fuel h
    cases fuel with
    | zero => omega
    | succ f =>
      have h2 : rest.length < f := by simpa using h
      have := ih tail f h2
      simp only [List.flatMap_cons, List.cons_append, List.append_assoc, readItems,
        readString_encodeString, this]

/-- The members of the query for a title, in the order the encoder writes them. -/
theorem sortByKey_buildQuery (title : String) :
    sortByKey (buildQuery title) =
      [("fields", .str (Join fieldNames ",")), ("filters", .list ["search", "=", title])] := by
  have hlt : lessChars ("filters" : String).toList ("fields" : String).toList = false := by
    decide
  simp only [buildQuery, sortByKey, List.foldr, insertByKey, hlt, Bool.false_eq_true, if_false]

/-- The characters of the serialized query for a title. -/
theorem Marshal_buildQuery_toList (title body : String)
    (h : Marshal (buildQuery title) = .ok body) :
    body.toList =
      '\x7b' :: ((encodeString "fields").toList ++ ':' :: ((encodeString fieldsText).toList ++
        ',' :: ((encodeString "filters").toList ++ ':' :: '[' ::
          ((encodeString "search").toList ++
            ((["=", title].flatMap fun s => ',' :: (encodeString s).toList) ++
              ']' :: ['\x7d']))))) := by
  have hJ : Join fieldNames "," = fieldsText := by decide
  unfold Marshal at h
  rw [sortByKey_buildQuery, hJ] at h
  have hb := (Except.ok.inj h).symm
  subst hb
  simp [Join, encodeValue, String.toList, String.data_append]

theorem readValue_string (s : String) (tail : List Char) :
    readValue ((encodeString s).toList ++ tail) = some (.str s, tail) := by
  obtain ⟨r, hr⟩ := encodeString_head s tail
  have h := readString_encodeString s tail
  rw [hr] at h ⊢
  simp [readValue, h]

theorem items_length_le (items : List String) :
    items.length ≤ (items.flatMap fun s => ',' :: (encodeString s).toList).length := by
  induction items with
  | nil => simp
  | cons s rest ih =>
    simp only [List.flatMap_cons, List.length_cons, List.length_append]
    omega

theorem readValue_list (s : String) (items : List String) (tail : List Char) :
    readValue ('[' :: ((encodeString s).toList ++
      ((items.flatMap fun s => ',' :: (encodeString s).toList) ++ ']' :: tail))) =
      some (.list (s :: items), tail) := by
  obtain ⟨r, hr⟩ := encodeString_head s
    ((items.flatMap fun s => ',' :: (encodeString s).toList) ++ ']' :: tail)
  have h := readString_encodeString s
    ((items.flatMap fun s => ',' :: (encodeString s).toList) ++ ']' :: tail)
  have hlen : items.length <
      ((items.flatMap fun s => ',' :: (encodeString s).toList) ++ ']' :: tail).length := by
    have := items_length_le items
    simp only [List.length_append, List.length_cons]
    omega
  have hi := readItems_encode items tail _ hlen
  rw [hr] at h ⊢
  have hh : ¬ (('"' :: r).head? = some ']') := by simp
  simp only [readValue, hh, if_false, h, hi]

theorem readMember_encode (k : String) (rest : List Char) (v : Value) (tail : List Char)
    (hv : readValue rest = some (v, tail)) :
    readMember ((encodeString k).toList ++ ':' :: rest) = some ((k, v), tail) := by
  unfold readMember
  rw [readString_encodeString]
  simp only [hv]

/-- Reading the serialized query back as a JSON object. -/
theorem parseObject_Marshal (title body : String)
    (h : Marshal (buildQuery title) = .ok body) :
    parseObject body =
      some [("fields", .str fieldsText), ("filters", .list ["search", "=", title])] := by
  have hl := Marshal_buildQuery_toList title body h
  have hm2 := readMember_encode "filters" _ _ _
    (readValue_list "search" ["=", title] ['\x7d'])
  have hm1 := readMember_encode "fields" _ _ _ (readValue_string fieldsText
    (',' :: ((encodeString "filters").toList ++ ':' :: '[' ::
          ((encodeString "search").toList ++
            ((["=", title].flatMap fun s => ',' :: (encodeString s).toList) ++
              ']' :: ['\x7d'])))))
  obtain ⟨r1, hr1⟩ := encodeString_head "fields" (':' :: ((encodeString fieldsText).toList ++
        ',' :: ((encodeString "filters").toList ++ ':' :: '[' ::
          ((encodeString "search").toList ++
            ((["=", title].flatMap fun s => ',' :: (encodeString s).toList) ++
              ']' :: ['\x7d'])))))
  have hne : ¬ ((encodeString "fields").toList ++ ':' :: ((encodeString fieldsText).toList ++
        ',' :: ((encodeString "filters").toList ++ ':' :: '[' ::
          ((encodeString "search").toList ++
            ((["=", title].flatMap fun s => ',' :: (encodeString s).toList) ++
              ']' :: ['\x7d'])))) = ['\x7d']) := by
    rw [hr1]; simp
  have hrest : ∀ rest : List Char, ∀ m, readMember rest = some (m, ['\x7d']) →
      readMembers (',' :: rest).length (',' :: rest) = some ([m], []) := by
    intro rest m hm
    cases hlen : rest.length with
    | zero =>
      have : rest = [] := List.eq_nil_of_length_eq_zero hlen
      subst this
      simp [readMember, readString] at hm
    | succ n =>
      simp [readMembers, hlen, hm]
  unfold parseObject
  rw [hl]
  simp only [hne, if_false, hm1, hrest _ _ hm2]

theorem encodeChar_plain (c : Char) (h : isPlainChar c = true) : encodeChar c = [c] := by
  simp only [isPlainChar, Bool.and_eq_true, decide_eq_true_eq, Bool.not_eq_true',
    Bool.or_eq_false_iff, beq_eq_false_iff_ne, ne_eq] at h
  obtain ⟨⟨h1, ⟨⟨⟨⟨h2, h3⟩, h4⟩, h5⟩, h6⟩⟩, h7, h8⟩ := h
  have hb : c ≠ '\x08' := by rintro rfl; revert h1; decide
  have hf : c ≠ '\x0c' := by rintro rfl; revert h1; decide
  have hn : c ≠ '\n' := by rintro rfl; revert h1; decide
  have hr : c ≠ '\r' := by rintro rfl; revert h1; decide
  have ht : c ≠ '\t' := by rintro rfl; revert h1; decide
  have hlow : ¬ c.toNat < 0x20 := by omega
  simp [encodeChar, h2, h3, h4, h5, h6, h7, h8, hb, hf, hn, hr, ht, hlow]

/-- A text of plain characters is written between quotes as it is. -/
theorem encodeString_plain (s : String) (h : s.toList.all isPlainChar = true) :
    encodeString s = "\"" ++ s ++ "\"" := by
  have hflat : ∀ l : List Char, l.all isPlainChar = true → l.flatMap encodeChar = l := by
    intro l
    induction l with
    | nil => intro _; rfl
    | cons c cs ih =>
      intro hl
      simp only [List.all_cons, Bool.and_eq_true] at hl
      simp [List.flatMap_cons, encodeChar_plain c hl.1, ih hl.2]
  unfold encodeString
  rw [hflat _ h]
  rfl

/-! ## Properties of the program -/

/-- C1: for every choice string `s` and every count `N`, `parseChoice s N`
accepts exactly when `strconv.Atoi` parses `s` as an integer `n` with
`1 ≤ n ≤ N`; it then returns `n - 1`, and it returns `-1` in every other case
(parse failure, `n < 1`, `n > N`). -/
theorem parseChoice_spec (s : String) (N : Int) :
    (∀ n, Atoi s = some n → 1 ≤ n → n ≤ N → parseChoice s N = n - 1) ∧
    (Atoi s = none → parseChoice s N = -1) ∧
    (∀ n, Atoi s = some n → (n < 1 ∨ N < n) → parseChoice s N = -1) ∧
    (parseChoice s N ≠ -1 ↔ ∃ n, Atoi s = some n ∧ 1 ≤ n ∧ n ≤ N) := by
  refine ⟨?_, ?_, ?_, ?_⟩
  · intro n h h1 h2
    simp [parseChoice, h, h1, h2]
  · intro h
    simp [parseChoice, h]
  · intro n h hr
    have : ¬ (1 ≤ n ∧ n ≤ N) := by omega
    simp [parseChoice, h, this]
  · cases h : Atoi s with
    | none => simp [parseChoice, h]
    | some n =>
      by_cases hr : 1 ≤ n ∧ n ≤ N
      · have hne : n - 1 ≠ -1 := by omega
        simp [parseChoice, h, hr, hne]
      · simp [parseChoice, h, hr]

/-- C1 at concrete inputs: "2" of 3 is accepted as index 1; "x", "0" and "4" of 3
are rejected. -/
theorem parseChoice_spec_witness :
    parseChoice "2" 3 = 1 ∧ parseChoice "x" 3 = -1 ∧ parseChoice "0" 3 = -1 ∧
      parseChoice "4" 3 = -1 :=
  ⟨(parseChoice_spec "2" 3).1 2 (by decide) (by decide) (by decide),
   (parseChoice_spec "x" 3).2.1 (by decide),
   (parseChoice_spec "0" 3).2.2.1 0 (by decide) (by decide),
   (parseChoice_spec "4" 3).2.2.1 4 (by decide) (by decide)⟩

/-- C2: for every list of `N > 1` received records and every `k` with
`1 ≤ k ≤ N`, when the choice line is the decimal numeral of `k` the program
displays the formatted block of the `k`-th received record, `resp[k-1]`, and
of no other record. -/
theorem choice_displays_kth (t : Terminal) (net : Network) (stdin : String)
    (resp : List VNDBEntry) (k : Nat)
    (hrecv : received net stdin = .ok resp) (hN : 1 < resp.length)
    (hint : resp.length < 2 ^ 63) (hk : 1 ≤ k) (hkN : k ≤ resp.length)
    (hchoice : choiceOf stdin = Nat.repr k) :
    ∃ e, resp[k - 1]? = some e ∧
      (run t net stdin).stdout =
        [titlePrompt, listHeader] ++ candidateLines resp ++ [choicePrompt] ++ block t e ∧
      (run t net stdin).panicked = false ∧
      (∀ r, block t r <:+: (run t net stdin).stdout → block t r = block t e) := by
  have hi : k - 1 < resp.length := by omega
  have hacc : parseChoice (choiceOf stdin) resp.length = ((k - 1 : Nat) : Int) := by
    rw [hchoice]; exact parseChoice_repr k resp.length hk hkN hint
  have hrun := run_accepted t net stdin resp hrecv hN (k - 1) hi hacc
  refine ⟨resp.get ⟨k - 1, hi⟩, ?_, ?_, ?_, ?_⟩
  · simp [List.getElem?_eq_getElem hi]
  · rw [hrun]
  · rw [hrun]
  · intro r hr
    rw [hrun] at hr
    have hb : block t r = border :: (block t r).tail := by rw [block_eq]; rfl
    exact run_unique _ _ _ _ border (border_not_before resp) hb
      (by rw [block_length, block_length]) hr

/-- C2 on two received records with the choice line "2": the block of the
second record is displayed. -/
theorem choice_displays_kth_witness :
    ∃ e, [sampleEntry, sampleEntry2][2 - 1]? = some e ∧
      (run ⟨true⟩ (Network.returning [sampleEntry, sampleEntry2]) "Fate\n2\n").stdout =
        [titlePrompt, listHeader] ++ candidateLines [sampleEntry, sampleEntry2] ++
          [choicePrompt] ++ block ⟨true⟩ e ∧
      (run ⟨true⟩ (Network.returning [sampleEntry, sampleEntry2]) "Fate\n2\n").panicked
        = false ∧
      (∀ r, block ⟨true⟩ r <:+:
          (run ⟨true⟩ (Network.returning [sampleEntry, sampleEntry2]) "Fate\n2\n").stdout →
        block ⟨true⟩ r = block ⟨true⟩ e) :=
  choice_displays_kth ⟨true⟩ (Network.returning [sampleEntry, sampleEntry2]) "Fate\n2\n"
    [sampleEntry, sampleEntry2] 2 rfl (by decide) (by decide) (by decide) (by decide)
    (by decide)

/-- C3: for every list of `N > 1` received records, a choice line of "0", of the
decimal numeral of `N + 1`, or of any non-numeric token makes the program print
"Invalid choice." and end without printing any record's formatted block; the
three cases give the same output. -/
theorem invalid_choice_reported (t : Terminal) (net : Network) (stdin : String)
    (resp : List VNDBEntry)
    (hrecv : received net stdin = .ok resp) (hN : 1 < resp.length)
    (hchoice : choiceOf stdin = "0" ∨ choiceOf stdin = Nat.repr (resp.length + 1) ∨
      isNumeral (choiceOf stdin) = false) :
    (run t net stdin).stdout =
      [titlePrompt, listHeader] ++ candidateLines resp ++ [choicePrompt, invalidChoice] ∧
    invalidChoice = "Invalid choice.\n" ∧
    (run t net stdin).reads = 2 ∧
    (run t net stdin).panicked = false ∧
    (∀ r, ¬ block t r <:+: (run t net stdin).stdout) := by
  have hrej : parseChoice (choiceOf stdin) resp.length = -1 := by
    rcases hchoice with h | h | h
    · rw [h]
      have h0 : Atoi "0" = some 0 := by decide
      simp [parseChoice, h0]
    · rw [h]
      simp only [parseChoice, Atoi_repr]
      split
      · rename_i num hnum
        split at hnum
        · have hn : num = ((resp.length + 1 : Nat) : Int) := (Option.some.inj hnum).symm
          have : ¬ (num ≥ 1 ∧ num ≤ (resp.length : Int)) := by omega
          simp [this]
        · exact absurd hnum (by simp)
      · rfl
    · simp [parseChoice, Atoi, h]
  have hrun := run_rejected t net stdin resp hrecv hN hrej
  refine ⟨by rw [hrun], rfl, by rw [hrun], by rw [hrun], ?_⟩
  · intro r hr
    rw [hrun] at hr
    obtain ⟨a, b, hab⟩ := hr
    have hmem : border ∈
        [titlePrompt, listHeader] ++ candidateLines resp ++ [choicePrompt, invalidChoice] := by
      have hab2 : a ++ block t r ++ b = [titlePrompt, listHeader] ++ candidateLines resp ++
          [choicePrompt, invalidChoice] := hab
      rw [← hab2]
      simp only [List.mem_append]
      exact Or.inl (Or.inr (border_mem_block t r))
    have hsplit : [titlePrompt, listHeader] ++ candidateLines resp ++
        [choicePrompt, invalidChoice] =
        ([titlePrompt, listHeader] ++ candidateLines resp ++ [choicePrompt]) ++
          [invalidChoice] := by simp
    rw [hsplit, List.mem_append] at hmem
    rcases hmem with h | h
    · exact border_not_before resp h
    · simp only [List.mem_singleton] at h
      revert h; decide

/-- C3 on two received records: the choice lines "0", "3" and "abc" are each
answered with "Invalid choice." and no block. -/
theorem invalid_choice_reported_witness :
    (run ⟨true⟩ (Network.returning [sampleEntry, sampleEntry2]) "Fate\n0\n").stdout =
      [titlePrompt, listHeader] ++ candidateLines [sampleEntry, sampleEntry2] ++
        [choicePrompt, invalidChoice] ∧
    (run ⟨true⟩ (Network.returning [sampleEntry, sampleEntry2]) "Fate\n3\n").stdout =
      [titlePrompt, listHeader] ++ candidateLines [sampleEntry, sampleEntry2] ++
        [choicePrompt, invalidChoice] ∧
    (run ⟨true⟩ (Network.returning [sampleEntry, sampleEntry2]) "Fate\nabc\n").stdout =
      [titlePrompt, listHeader] ++ candidateLines [sampleEntry, sampleEntry2] ++
        [choicePrompt, invalidChoice] :=
  ⟨(invalid_choice_reported ⟨true⟩ (Network.returning [sampleEntry, sampleEntry2])
      "Fate\n0\n" [sampleEntry, sampleEntry2] rfl (by decide) (Or.inl (by decide))).1,
   (invalid_choice_reported ⟨true⟩ (Network.returning [sampleEntry, sampleEntry2])
      "Fate\n3\n" [sampleEntry, sampleEntry2] rfl (by decide)
      (Or.inr (Or.inl (by decide)))).1,
   (invalid_choice_reported ⟨true⟩ (Network.returning [sampleEntry, sampleEntry2])
      "Fate\nabc\n" [sampleEntry, sampleEntry2] rfl (by decide)
      (Or.inr (Or.inr (by decide)))).1⟩

/-- C4: for every list of `N > 1` received records, the numbered candidate list
the program prints has exactly `N` entries, in the order the records were
received, and the `i`-th entry (1-based) is the line "i. <title> (ID: <id>)"
built from the `i`-th record's title and identifier. -/
theorem candidates_listed (t : Terminal) (net : Network) (stdin : String)
    (resp : List VNDBEntry)
    (hrecv : received net stdin = .ok resp) (hN : 1 < resp.length) :
    (∃ tail, (run t net stdin).stdout =
        [titlePrompt, listHeader] ++ candidateLines resp ++ choicePrompt :: tail ∧
      (tail = [invalidChoice] ∨ ∃ r ∈ resp, tail = block t r)) ∧
    (candidateLines resp).length = resp.length ∧
    (∀ (i : Nat) (h : i < resp.length),
      (candidateLines resp)[i]? =
        some (Nat.repr (i + 1) ++ ". " ++ (resp.get ⟨i, h⟩).Title ++ " (ID: " ++
          (resp.get ⟨i, h⟩).ID ++ ")\n")) ∧
    (∀ r, border ∉ candidateLines resp ∧ candidateLines resp ≠ block t r) := by
  refine ⟨?_, by simp [candidateLines], ?_, ?_⟩
  · by_cases hrej : parseChoice (choiceOf stdin) resp.length = -1
    · refine ⟨[invalidChoice], ?_, Or.inl rfl⟩
      rw [run_rejected t net stdin resp hrecv hN hrej]
    · rcases parseChoice_range (choiceOf stdin) resp.length with h | ⟨i, hi, hacc⟩
      · exact absurd h hrej
      · refine ⟨block t (resp.get ⟨i, hi⟩), ?_, Or.inr ⟨_, List.get_mem resp _ _, rfl⟩⟩
        rw [run_accepted t net stdin resp hrecv hN i hi hacc]
        simp
  · intro i h
    simp [candidateLines, h, candidateLine]
  · intro r
    refine ⟨border_not_candidate resp, ?_⟩
    intro heq
    apply border_not_candidate resp
    rw [heq]
    exact border_mem_block t r

/-- C4 on two received records: two candidate lines, the second one numbered 2. -/
theorem candidates_listed_witness :
    (candidateLines [sampleEntry, sampleEntry2]).length = 2 ∧
    (candidateLines [sampleEntry, sampleEntry2])[1]? =
      some "2. Fate/stay night (ID: v11)\n" :=
  ⟨(candidates_listed ⟨true⟩ (Network.returning [sampleEntry, sampleEntry2]) "Fate\n1\n"
      [sampleEntry, sampleEntry2] rfl (by decide)).2.1,
   (candidates_listed ⟨true⟩ (Network.returning [sampleEntry, sampleEntry2]) "Fate\n1\n"
      [sampleEntry, sampleEntry2] rfl (by decide)).2.2.1 1 (by decide)⟩

/-- C5, as stated, fails: with zero records the output is not only the
"no match" message, since the title prompt precedes it. -/
theorem no_match_output_not_only_message :
    received (Network.returning []) "Fate\n" = .ok [] ∧
    (run ⟨true⟩ (Network.returning []) "Fate\n").text ≠ "No matching query was found." ∧
    (run ⟨true⟩ (Network.returning []) "Fate\n").text ≠ "No matching query was found.\n" ∧
    (run ⟨true⟩ (Network.returning []) "Fate\n").stdout ≠ [noMatch] :=
  ⟨rfl, by decide, by decide, by decide⟩

/-- C5, amended: when the provider returns zero records (for every title
input), the program's output is the title prompt followed by exactly the line
"No matching query was found." and nothing else. -/
theorem no_match_reported (t : Terminal) (net : Network) (stdin : String)
    (hrecv : received net stdin = .ok []) :
    (run t net stdin).stdout = [titlePrompt, noMatch] ∧
    (run t net stdin).text =
      "Enter the title you want to search for: No matching query was found.\n" ∧
    (run t net stdin).reads = 1 ∧
    (run t net stdin).panicked = false := by
  have hrun : run t net stdin = ⟨dropLine stdin, [titlePrompt, noMatch], 1, false⟩ := by
    rw [main_eq, hrecv]
    rfl
  have htext : String.join [titlePrompt, noMatch] =
      "Enter the title you want to search for: No matching query was found.\n" := by decide
  rw [hrun]
  exact ⟨rfl, htext, rfl, rfl⟩

/-- C5 amended, on the input line "Fate" answered with no record. -/
theorem no_match_reported_witness :
    received (Network.returning []) "Fate\n" = .ok [] ∧
    (run ⟨false⟩ (Network.returning []) "Fate\n").text =
      "Enter the title you want to search for: No matching query was found.\n" :=
  ⟨rfl, (no_match_reported ⟨false⟩ (Network.returning []) "Fate\n" rfl).2.1⟩

/-- C6, as stated, fails: with exactly one record the program's output is not
the formatted block of that record alone, since the title prompt precedes it. -/
theorem single_record_output_not_only_block :
    received (Network.returning [sampleEntry]) "Ever17\n" = .ok [sampleEntry] ∧
    (run ⟨true⟩ (Network.returning [sampleEntry]) "Ever17\n").stdout ≠
      block ⟨true⟩ sampleEntry ∧
    (run ⟨true⟩ (Network.returning [sampleEntry]) "Ever17\n").text ≠
      String.join (block ⟨true⟩ sampleEntry) :=
  ⟨rfl, by decide, by decide⟩

/-- C6, amended: when the provider returns exactly one record, the program's
output is the title prompt followed by the formatted block of that record and
contains neither a numbered candidate list nor the choice prompt; the record is
selected directly and no choice line is read, so the output does not depend on
any further input. -/
theorem single_record_displayed (t : Terminal) (net : Network) (stdin : String)
    (e : VNDBEntry) (hrecv : received net stdin = .ok [e]) :
    (run t net stdin).stdout = titlePrompt :: block t e ∧
    (run t net stdin).text = titlePrompt ++ String.join (block t e) ∧
    (run t net stdin).reads = 1 ∧
    (run t net stdin).panicked = false ∧
    choicePrompt ∉ (run t net stdin).stdout ∧
    listHeader ∉ (run t net stdin).stdout ∧
    (∀ i r, candidateLine i r ∉ (run t net stdin).stdout) ∧
    (∀ stdin2, titleOf stdin2 = titleOf stdin →
      (run t net stdin2).stdout = (run t net stdin).stdout) := by
  have hone : ∀ s, received net s = .ok [e] →
      run t net s = ⟨dropLine s, titlePrompt :: block t e, 1, false⟩ := by
    intro s hs
    rw [main_eq, hs]
    have h0 : elemAt [e] 0 = some e := rfl
    simp only [List.length_singleton, if_true, h0, printEntry_eq, afterTitle_eq]
    rfl
  have hrun := hone stdin hrecv
  have htext : String.join (titlePrompt :: block t e) =
      titlePrompt ++ String.join (block t e) := by
    apply String.ext
    simp [String.data_join, String.data_append]
  refine ⟨by rw [hrun], by rw [hrun]; exact htext, by rw [hrun], by rw [hrun], ?_, ?_, ?_, ?_⟩
  · rw [hrun]
    simp only [List.mem_cons, not_or]
    exact ⟨by decide, not_mem_block_of_firstChar t e _ 'C' (by decide) (by decide)⟩
  · rw [hrun]
    simp only [List.mem_cons, not_or]
    exact ⟨by decide, not_mem_block_of_firstChar t e _ 'M' (by decide) (by decide)⟩
  · intro i r
    rw [hrun]
    simp only [List.mem_cons, not_or]
    exact ⟨candidateLine_ne_of_firstChar i r _ 'E' (by decide) (by decide),
      candidateLine_not_mem_block t i r e⟩
  · intro stdin2 h2
    rw [hrun, hone stdin2 (by rw [received_congr net stdin stdin2 h2]; exact hrecv)]

/-- C6 on one received record: the output is the prompt and the record's block,
one line was read, and a different second input line gives the same output. -/
theorem single_record_displayed_witness :
    received (Network.returning [sampleEntry]) "Ever17\n2\n" = .ok [sampleEntry] ∧
    (run ⟨true⟩ (Network.returning [sampleEntry]) "Ever17\n2\n").stdout =
      titlePrompt :: block ⟨true⟩ sampleEntry ∧
    (run ⟨true⟩ (Network.returning [sampleEntry]) "Ever17\n2\n").reads = 1 ∧
    (run ⟨true⟩ (Network.returning [sampleEntry]) "Ever17\nxyz\n").stdout =
      (run ⟨true⟩ (Network.returning [sampleEntry]) "Ever17\n2\n").stdout :=
  ⟨rfl,
   (single_record_displayed ⟨true⟩ (Network.returning [sampleEntry]) "Ever17\n2\n"
     sampleEntry rfl).1,
   (single_record_displayed ⟨true⟩ (Network.returning [sampleEntry]) "Ever17\n2\n"
     sampleEntry rfl).2.2.1,
   (single_record_displayed ⟨true⟩ (Network.returning [sampleEntry]) "Ever17\n2\n"
     sampleEntry rfl).2.2.2.2.2.2.2 "Ever17\nxyz\n" (by decide)⟩

/-- C7: `formatDevStatus` is total and maps every integer status to one of
exactly four fixed labels: 0 to "Finished" in green, 1 to "In development" in
yellow, 2 to "Cancelled" in red, and every other integer to "Unknown" in red. -/
theorem formatDevStatus_total (t : Terminal) (status : Int) :
    formatDevStatus t 0 = colorString t .FgGreen "Finished" ∧
    formatDevStatus t 1 = colorString t .FgYellow "In development" ∧
    formatDevStatus t 2 = colorString t .FgRed "Cancelled" ∧
    (status ≠ 0 → status ≠ 1 → status ≠ 2 →
      formatDevStatus t status = colorString t .FgRed "Unknown") ∧
    formatDevStatus t status ∈
      [colorString t .FgGreen "Finished", colorString t .FgYellow "In development",
       colorString t .FgRed "Cancelled", colorString t .FgRed "Unknown"] ∧
    [colorString t .FgGreen "Finished", colorString t .FgYellow "In development",
       colorString t .FgRed "Cancelled", colorString t .FgRed "Unknown"].Nodup ∧
    colorString ⟨false⟩ .FgGreen "Finished" = "\x1b[32mFinished\x1b[0m" ∧
    colorString ⟨false⟩ .FgYellow "In development" = "\x1b[33mIn development\x1b[0m" ∧
    colorString ⟨false⟩ .FgRed "Cancelled" = "\x1b[31mCancelled\x1b[0m" ∧
    colorString ⟨false⟩ .FgRed "Unknown" = "\x1b[31mUnknown\x1b[0m" := by
  refine ⟨rfl, rfl, rfl, ?_, ?_, ?_, by decide, by decide, by decide, by decide⟩
  · intro h0 h1 h2
    simp [formatDevStatus, h0, h1, h2, RedString]
  · by_cases h0 : status = 0
    · subst h0; simp [formatDevStatus, GreenString]
    · by_cases h1 : status = 1
      · subst h1; simp [formatDevStatus, YellowString]
      · by_cases h2 : status = 2
        · subst h2; simp [formatDevStatus, RedString]
        · simp [formatDevStatus, h0, h1, h2, RedString]
  · obtain ⟨nc⟩ := t
    cases nc <;> decide

/-- C7 at the statuses 99 and -1: both are labelled "Unknown" in red. -/
theorem formatDevStatus_total_witness :
    formatDevStatus ⟨false⟩ 99 = "\x1b[31mUnknown\x1b[0m" ∧
      formatDevStatus ⟨true⟩ (-1) = "Unknown" :=
  ⟨(formatDevStatus_total ⟨false⟩ 99).2.2.2.1 (by decide) (by decide) (by decide),
   (formatDevStatus_total ⟨true⟩ (-1)).2.2.2.1 (by decide) (by decide) (by decide)⟩

/-- C8: for every trimmed title (and for "Fate/stay night") the request body
built by the program has the filter `["search","=",title]` and a fields value
equal to the sixteen field names joined by commas; it serializes as the JSON
object with exactly the two members `"filters"` and `"fields"`, the filter
written `["search","=","Fate/stay night"]`, and this text is what is posted.
For every title the string literal written for it reads back as the title, and
the whole body reads back as the object with these two members. -/
theorem query_body (title : String) :
    buildQuery title =
      [("filters", .list ["search", "=", title]), ("fields", .str fieldsText)] ∧
    fieldNames.length = 16 ∧
    Join fieldNames "," = fieldsText ∧
    fieldsText = "id,title,image.url,alttitle,titles.official,olang,devstatus,released,languages,platforms,description,rating,votecount,length,length_minutes,length_votes" ∧
    encodeValue (.list ["search", "=", title]) =
      "[\"search\",\"=\"," ++ encodeString title ++ "]" ∧
    encodeValue (.list ["search", "=", "Fate/stay night"]) =
      "[\"search\",\"=\",\"Fate/stay night\"]" ∧
    (∃ members, members.Perm
        ["\"filters\":" ++ encodeValue (.list ["search", "=", title]),
         "\"fields\":" ++ encodeValue (.str fieldsText)] ∧
      Marshal (buildQuery title) = .ok ("\x7b" ++ Join members "," ++ "\x7d")) ∧
    Marshal (buildQuery title) =
      .ok ("\x7b\"fields\":\"" ++ fieldsText ++ "\",\"filters\":[\"search\",\"=\"," ++
        encodeString title ++ "]\x7d") ∧
    Marshal (buildQuery "Fate/stay night") =
      .ok ("\x7b\"fields\":\"" ++ fieldsText ++
        "\",\"filters\":[\"search\",\"=\",\"Fate/stay night\"]\x7d") ∧
    titleOf "Fate/stay night\n" = "Fate/stay night" ∧
    (∀ (net : Network) (stdin : String), titleOf stdin = title →
      received net stdin =
        (net.Post apiURL "application/json"
          ("\x7b\"fields\":\"" ++ fieldsText ++ "\",\"filters\":[\"search\",\"=\"," ++
            encodeString title ++ "]\x7d")).bind net.Decode) ∧
    decodeString (encodeString title) = some title ∧
    parseObject ("\x7b\"fields\":\"" ++ fieldsText ++ "\",\"filters\":[\"search\",\"=\"," ++
        encodeString title ++ "]\x7d") =
      some [("fields", .str fieldsText), ("filters", .list ["search", "=", title])] ∧
    [("fields", Value.str fieldsText), ("filters", Value.list ["search", "=", title])].Perm
      (buildQuery title) ∧
    (title.toList.all isPlainChar = true → encodeString title = "\"" ++ title ++ "\"") ∧
    encodeString "a\"b\\c<d>&e\n\r\t\x08\x0c\x01\u2028" =
      "\"a\\\"b\\\\c\\u003cd\\u003e\\u0026e\\n\\r\\t\\b\\f\\u0001\\u2028\"" ∧
    decodeString "\"a\\\"b\\\\c\\u003cd\\u003e\\u0026e\\n\\r\\t\\b\\f\\u0001\\u2028\"" =
      some "a\"b\\c<d>&e\n\r\t\x08\x0c\x01\u2028" := by
  have hJ : Join fieldNames "," = fieldsText := by decide
  have hq : ∀ ttl, buildQuery ttl =
      [("filters", .list ["search", "=", ttl]), ("fields", .str fieldsText)] := by
    intro ttl; simp [buildQuery, hJ]
  have hlt : lessChars ("filters" : String).toList ("fields" : String).toList = false := by
    decide
  have hstr : encodeString fieldsText = "\"" ++ fieldsText ++ "\"" := by decide
  have hs1 : encodeString "search" = "\"search\"" := by decide
  have hs2 : encodeString "=" = "\"=\"" := by decide
  have hk1 : encodeString "fields" = "\"fields\"" := by decide
  have hk2 : encodeString "filters" = "\"filters\"" := by decide
  have hv : ∀ ttl, encodeValue (.list ["search", "=", ttl]) =
      "[\"search\",\"=\"," ++ encodeString ttl ++ "]" := by
    intro ttl
    simp only [encodeValue, List.map, Join, hs1, hs2, String.append_assoc]
    rfl
  have hsort : ∀ ttl, sortByKey (buildQuery ttl) =
      [("fields", .str fieldsText), ("filters", .list ["search", "=", ttl])] := by
    intro ttl
    rw [hq]
    simp only [sortByKey, List.foldr, insertByKey, hlt, Bool.false_eq_true, if_false]
  have hM : ∀ ttl, Marshal (buildQuery ttl) =
      .ok ("\x7b\"fields\":\"" ++ fieldsText ++ "\",\"filters\":[\"search\",\"=\"," ++
        encodeString ttl ++ "]\x7d") := by
    intro ttl
    unfold Marshal
    rw [hsort]
    simp only [List.map, Join, encodeValue, hk1, hk2, hstr, hs1, hs2, String.append_assoc]
    rfl
  have hF : encodeString "Fate/stay night" = "\"Fate/stay night\"" := by decide
  refine ⟨hq title, by decide, hJ, by decide, hv title, ?_, ?_, hM title, ?_, by decide, ?_,
    decodeString_encodeString title, parseObject_Marshal title _ (hM title), ?_,
    encodeString_plain title, by decide, by decide⟩
  · rw [hv, hF]; rfl
  · refine ⟨["\"fields\":" ++ encodeValue (.str fieldsText),
      "\"filters\":" ++ encodeValue (.list ["search", "=", title])], List.Perm.swap _ _ _, ?_⟩
    unfold Marshal
    rw [hsort]
    simp only [List.map, Join, hk1, hk2, String.append_assoc]
    rfl
  · rw [hM, hF]; rfl
  · intro net stdin ht
    unfold received fetchData
    rw [ht, hM]
    simp only
    cases net.Post apiURL "application/json" _ with
    | error err => rfl
    | ok body =>
      simp only [Except.bind]
      cases net.Decode body <;> rfl
  · rw [hq]
    exact List.Perm.swap _ _ _

/-- C8 at the title line "Fate/stay night": the body posted is the serialized
query for that title, and the title, made of plain characters, is written
between quotes as it is. -/
theorem query_body_witness :
    "Fate/stay night".toList.all isPlainChar = true ∧
    encodeString "Fate/stay night" = "\"" ++ "Fate/stay night" ++ "\"" ∧
    titleOf "Fate/stay night\n" = "Fate/stay night" ∧
      received (Network.returning []) "Fate/stay night\n" =
        ((Network.returning []).Post apiURL "application/json"
          ("\x7b\"fields\":\"" ++ fieldsText ++ "\",\"filters\":[\"search\",\"=\"," ++
            encodeString "Fate/stay night" ++ "]\x7d")).bind (Network.returning []).Decode :=
  ⟨by decide,
   (query_body "Fate/stay night").2.2.2.2.2.2.2.2.2.2.2.2.2.2.1 (by decide),
   by decide,
   (query_body "Fate/stay night").2.2.2.2.2.2.2.2.2.2.1 (Network.returning [])
     "Fate/stay night\n" (by decide)⟩

/-- C9: the text `printEntry` writes for a record contains each field's value
as a literal substring: the title, identifier, image URL, alternate title,
original-language code, release date, every language and platform code, the
description, the rating rendered with two decimals (87.5 gives "87.50"), the
vote count and the three length integers.  The integers occur as their decimal
numerals, and a finite rating as sign, integer digits, a point and two digits
whose value is an integer nearest to one hundred times the rating. -/
theorem printEntry_contains_fields (t : Terminal) (e : VNDBEntry) (w : World) :
    (printEntry t e w).text = w.text ++ String.join (block t e) ∧
    Contains (String.join (block t e)) e.Title ∧
    Contains (String.join (block t e)) e.ID ∧
    Contains (String.join (block t e)) e.Image.URL ∧
    Contains (String.join (block t e)) e.AltTitle ∧
    Contains (String.join (block t e)) e.OriginalLang ∧
    Contains (String.join (block t e)) e.Released ∧
    (∀ l ∈ e.Languages, Contains (String.join (block t e)) l) ∧
    (∀ p ∈ e.Platforms, Contains (String.join (block t e)) p) ∧
    Contains (String.join (block t e)) e.Description ∧
    Contains (String.join (block t e)) (formatFloat2 e.Rating) ∧
    Contains (String.join (block t e)) (formatInt e.VoteCount) ∧
    Contains (String.join (block t e)) (formatInt e.Length) ∧
    Contains (String.join (block t e)) (formatInt e.LengthMinutes) ∧
    Contains (String.join (block t e)) (formatInt e.LengthVotes) ∧
    formatFloat2 (.finite false 175 (-1)) = "87.50" ∧
    formatFloat2 (.finite false 6157265115545600 (-46)) = "87.50" ∧
    Contains (String.join (block t sampleEntry)) "v17" ∧
    Contains (String.join (block t sampleEntry)) "87.50" ∧
    isDecimalOf (formatInt e.VoteCount) e.VoteCount = true ∧
    isDecimalOf (formatInt e.Length) e.Length = true ∧
    isDecimalOf (formatInt e.LengthMinutes) e.LengthMinutes = true ∧
    isDecimalOf (formatInt e.LengthVotes) e.LengthVotes = true ∧
    (∀ z : Int, -(2 : Int) ^ 63 ≤ z → z < 2 ^ 63 → Atoi (formatInt z) = some z) ∧
    (∀ (neg : Bool) (mant : Nat) (exp : Int),
      readFixed2 (formatFloat2 (.finite neg mant exp)) = some (neg, hundredths mant exp) ∧
      2 * (hundredths mant exp * 2 ^ (-exp).toNat) ≤
        2 * (mant * 100 * 2 ^ exp.toNat) + 2 ^ (-exp).toNat ∧
      2 * (mant * 100 * 2 ^ exp.toNat) ≤
        2 * (hundredths mant exp * 2 ^ (-exp).toNat) + 2 ^ (-exp).toNat) ∧
    formatInt 12000 = "12000" ∧ formatInt 0 = "0" ∧ formatInt (-5) = "-5" ∧
    formatFloat2 (.finite false 1 (-3)) = "0.12" ∧
    formatFloat2 (.finite false 3 (-3)) = "0.38" ∧
    formatFloat2 (.finite false 3 0) = "3.00" ∧
    formatFloat2 (.finite true 1 (-10)) = "-0.00" ∧
    formatFloat2 (.finite false 5105956077531300 (-49)) = "9.07" ∧
    Contains (String.join (block t sampleEntry)) "12000" ∧
    Contains (String.join (block t sampleEntry)) "4" ∧
    Contains (String.join (block t sampleEntry)) "2400" ∧
    Contains (String.join (block t sampleEntry)) "300" := by
  have key : ∀ (r : VNDBEntry) (label v s : String), label ++ v ++ "\n" ∈ block t r →
      Contains v s → Contains (String.join (block t r)) s :=
    fun r label v s hw h => Contains_line (block t r) label v s hw h
  have hmem : ∀ (r : VNDBEntry) (x : String), x ∈
      [border,
       CyanString t ("Title: " ++ r.Title) ++ "\n",
       border,
       "ID: " ++ YellowString t r.ID ++ "\n",
       "Image URL: " ++ BlueString t r.Image.URL ++ "\n",
       "Alternate Title: " ++ r.AltTitle ++ "\n",
       "Official Title: " ++ GreenString t (formatBool r.Official) ++ "\n",
       "Original Language: " ++ MagentaString t r.OriginalLang ++ "\n",
       "Development Status: " ++ formatDevStatus t r.DevStatus ++ "\n",
       "Release Date: " ++ r.Released ++ "\n",
       "Languages: " ++ formatList t r.Languages ++ "\n",
       "Platforms: " ++ formatList t r.Platforms ++ "\n",
       "Description: " ++ r.Description ++ "\n",
       "Rating: " ++ YellowString t (formatFloat2 r.Rating) ++ "\n",
       "Vote Count: " ++ formatInt r.VoteCount ++ "\n",
       "Length: " ++ formatInt r.Length ++ "\n",
       "Length in Minutes: " ++ formatInt r.LengthMinutes ++ "\n",
       "Length Votes: " ++ formatInt r.LengthVotes ++ "\n",
       border] → x ∈ block t r := by
    intro r x hx; rw [block_eq]; exact hx
  refine ⟨?_, ?_, ?_, ?_, ?_, ?_, ?_, ?_, ?_, ?_, ?_, ?_, ?_, ?_, ?_, by decide, by decide,
    ?_, ?_, formatInt_isDecimalOf _, formatInt_isDecimalOf _, formatInt_isDecimalOf _,
    formatInt_isDecimalOf _, Atoi_formatInt,
    fun neg mant exp => ⟨readFixed2_formatFloat2 neg mant exp, hundredths_near mant exp⟩,
    by decide, by decide, by decide, by decide, by decide, by decide, by decide, by decide,
    ?_, ?_, ?_, ?_⟩
  · rw [printEntry_eq]
    apply String.ext
    simp [World.text, String.data_join]
  · have h : Contains (CyanString t ("Title: " ++ e.Title)) e.Title :=
      Contains_trans (Contains_colorString t .FgCyan _)
        (by simpa using Contains_mid "Title: " e.Title "")
    have := key e "" (CyanString t ("Title: " ++ e.Title)) e.Title
      (hmem e _ (by simp)) h
    exact this
  · exact key e "ID: " (YellowString t e.ID) _ (hmem e _ (by simp))
      (Contains_colorString t .FgYellow _)
  · exact key e "Image URL: " (BlueString t e.Image.URL) _ (hmem e _ (by simp))
      (Contains_colorString t .FgBlue _)
  · exact key e "Alternate Title: " _ _ (hmem e _ (by simp)) (Contains_refl _)
  · exact key e "Original Language: " (MagentaString t e.OriginalLang) _
      (hmem e _ (by simp)) (Contains_colorString t .FgMagenta _)
  · exact key e "Release Date: " _ _ (hmem e _ (by simp)) (Contains_refl _)
  · intro l hl
    exact key e "Languages: " (formatList t e.Languages) _ (hmem e _ (by simp))
      (Contains_trans (Contains_colorString t .FgCyan _) (Contains_Join ", " _ l hl))
  · intro p hp
    exact key e "Platforms: " (formatList t e.Platforms) _ (hmem e _ (by simp))
      (Contains_trans (Contains_colorString t .FgCyan _) (Contains_Join ", " _ p hp))
  · exact key e "Description: " _ _ (hmem e _ (by simp)) (Contains_refl _)
  · exact key e "Rating: " (YellowString t (formatFloat2 e.Rating)) _
      (hmem e _ (by simp)) (Contains_colorString t .FgYellow _)
  · exact key e "Vote Count: " _ _ (hmem e _ (by simp)) (Contains_refl _)
  · exact key e "Length: " _ _ (hmem e _ (by simp)) (Contains_refl _)
  · exact key e "Length in Minutes: " _ _ (hmem e _ (by simp)) (Contains_refl _)
  · exact key e "Length Votes: " _ _ (hmem e _ (by simp)) (Contains_refl _)
  · exact key sampleEntry "ID: " (YellowString t sampleEntry.ID) _
      (hmem sampleEntry _ (by simp)) (Contains_colorString t .FgYellow _)
  · exact key sampleEntry "Rating: " (YellowString t (formatFloat2 sampleEntry.Rating)) _
      (hmem sampleEntry _ (by simp))
      (Contains_colorString t .FgYellow (formatFloat2 sampleEntry.Rating))
  · exact key sampleEntry "Vote Count: " (formatInt sampleEntry.VoteCount) _
      (hmem sampleEntry _ (by simp)) (Contains_refl _)
  · exact key sampleEntry "Length: " (formatInt sampleEntry.Length) _
      (hmem sampleEntry _ (by simp)) (Contains_refl _)
  · exact key sampleEntry "Length in Minutes: " (formatInt sampleEntry.LengthMinutes) _
      (hmem sampleEntry _ (by simp)) (Contains_refl _)
  · exact key sampleEntry "Length Votes: " (formatInt sampleEntry.LengthVotes) _
      (hmem sampleEntry _ (by simp)) (Contains_refl _)

/-- C9 at the sample record: the language code "ja" and the platform code "ps2"
occur in the text of its block, and the numeral printed for -12000 reads back
as -12000. -/
theorem printEntry_contains_fields_witness :
    "ja" ∈ sampleEntry.Languages ∧ "ps2" ∈ sampleEntry.Platforms ∧
      Atoi (formatInt (-12000)) = some (-12000) ∧
      Contains (String.join (block ⟨false⟩ sampleEntry)) "ja" ∧
      Contains (String.join (block ⟨false⟩ sampleEntry)) "ps2" :=
  ⟨by decide, by decide,
   (printEntry_contains_fields ⟨false⟩ sampleEntry (World.start "")).2.2.2.2.2.2.2.2.2.2.2.2.2.2.2.2.2.2.2.2.2.2.2.1
     (-12000) (by decide) (by decide),
   (printEntry_contains_fields ⟨false⟩ sampleEntry (World.start "")).2.2.2.2.2.2.2.1
     "ja" (by decide),
   (printEntry_contains_fields ⟨false⟩ sampleEntry (World.start "")).2.2.2.2.2.2.2.2.1
     "ps2" (by decide)⟩

/-- C10: whenever fetching fails (request serialization, transport, or response
decoding error), the program reports it as the single message
"Error: <details>" and ends: it prints no candidate list, no choice prompt, no
record block and no "no match" message, and reads no choice; the three error
kinds are reported identically. -/
theorem fetch_error_reported (t : Terminal) (net : Network) (stdin : String) (err : String)
    (hfail : Marshal (buildQuery (titleOf stdin)) = .error err ∨
      ∃ body, Marshal (buildQuery (titleOf stdin)) = .ok body ∧
        (net.Post apiURL "application/json" body = .error err ∨
          ∃ answer, net.Post apiURL "application/json" body = .ok answer ∧
            net.Decode answer = .error err)) :
    received net stdin = .error err ∧
    (run t net stdin).stdout = [titlePrompt, "Error: " ++ err ++ "\n"] ∧
    (run t net stdin).reads = 1 ∧
    (run t net stdin).panicked = false ∧
    choicePrompt ∉ (run t net stdin).stdout ∧
    listHeader ∉ (run t net stdin).stdout ∧
    noMatch ∉ (run t net stdin).stdout ∧
    (∀ i r, candidateLine i r ∉ (run t net stdin).stdout) ∧
    (∀ r, ¬ block t r <:+: (run t net stdin).stdout) := by
  have hrecv : received net stdin = .error err := by
    unfold received fetchData
    rcases hfail with h | ⟨body, hb, h | ⟨answer, ha, hd⟩⟩
    · rw [h]
    · rw [hb]; simp only; rw [h]
    · rw [hb]; simp only; rw [ha]; simp only; rw [hd]
  have hrun : run t net stdin =
      ⟨dropLine stdin, [titlePrompt, "Error: " ++ err ++ "\n"], 1, false⟩ := by
    rw [main_eq, hrecv]
    rfl
  have hE : firstChar ("Error: " ++ err ++ "\n") = some 'E' := by
    rw [String.append_assoc]; exact firstChar_append _ _ _ rfl
  have hne : ∀ w : String, firstChar w ≠ some 'E' → w ∉ [titlePrompt, "Error: " ++ err ++ "\n"] := by
    intro w hw hmem
    simp only [List.mem_cons, List.mem_singleton, List.not_mem_nil, or_false] at hmem
    rcases hmem with h | h
    · subst h; exact hw (by decide)
    · subst h; exact hw hE
  rw [hrun]
  refine ⟨hrecv, rfl, rfl, rfl, hne _ (by decide), hne _ (by decide), hne _ (by decide), ?_, ?_⟩
  · intro i r
    apply hne
    obtain ⟨d, hd, hfd⟩ := candidateLine_firstChar i r
    rw [hfd]
    intro h
    have : d = 'E' := Option.some.inj h
    subst this
    revert hd; decide
  · intro r hr
    obtain ⟨a, b, hab⟩ := hr
    have hab2 : a ++ block t r ++ b = [titlePrompt, "Error: " ++ err ++ "\n"] := hab
    have hmem : border ∈ [titlePrompt, "Error: " ++ err ++ "\n"] := by
      rw [← hab2]
      simp only [List.mem_append]
      exact Or.inl (Or.inr (border_mem_block t r))
    exact hne border (by decide) hmem

/-- C10 on a refused connection and on an undecodable response: each is
reported as one "Error: ..." line after the title prompt. -/
theorem fetch_error_reported_witness :
    (run ⟨true⟩ Network.unreachable "Fate\n1\n").stdout =
      [titlePrompt, "Error: connection refused\n"] ∧
    (run ⟨true⟩ Network.garbled "Fate\n1\n").stdout =
      [titlePrompt, "Error: invalid character '<'\n"] :=
  ⟨(fetch_error_reported ⟨true⟩ Network.unreachable "Fate\n1\n" "connection refused"
      (Or.inr ⟨_, rfl, Or.inl rfl⟩)).2.1,
   (fetch_error_reported ⟨true⟩ Network.garbled "Fate\n1\n" "invalid character '<'"
      (Or.inr ⟨_, rfl, Or.inr ⟨"<html>", rfl, rfl⟩⟩)).2.1⟩

end VNInfo
